import Mathlib

/-!
# Raster, pixel planes and block views of the alfalfa VP8 decoder

Shallow embedding of `src/util/raster.hh`.

* `unsigned int` values are natural numbers below `UINT_RANGE = 2 ^ 32`; every
  arithmetic step of the header that can wrap is reduced modulo `UINT_RANGE`.
* A failed `assert` is the result `none`.
* A C++ reference into a plane (`uint8_t &`) is the index of the sample in the
  plane's `storage_`; reading and writing go through `TwoD.load` / `TwoD.store`.
* Views (`TwoDSubRange`, `Block`, `Macroblock`) hold the origin of their window;
  the plane or lattice they alias is passed to the accessor.

The header `2d.hh` and the `.cc` files with the member function bodies are not
part of the sources at hand; what is needed from them is modelled from the
specification and marked so.
-/

namespace Alfalfa

/-! ## Machine integers and samples -/

/-- Number of values of the C++ type `unsigned int` (32 bits). -/
def UINT_RANGE : Nat := 2 ^ 32

/-- `clamp255` (raster.hh 21-27) at a signed integer type: the result is the
returned `uint8_t`. -/
def clamp255 (value : Int) : Nat :=
  if value < 0 then 0
  else if value > 255 then 255
  else value.toNat % 256

/-! ## Two-dimensional arrays -/

/-- `TwoD< T >`: `width_`, `height_` and the row-major `storage_`. -/
structure TwoD (α : Type) where
  width_ : Nat
  height_ : Nat
  storage_ : List α
deriving DecidableEq, Repr

/-- `TwoD< uint8_t >::TwoD( width, height, Fargs... )` (raster.hh 12-19):
`storage_( width * height, Fargs... )` with the product taken in `unsigned int`,
then the two assertions. `fill` is the value of the samples (`Fargs` is empty in
`Raster`, which value-initialises them to 0). -/
def TwoD.construct (width height : Nat) (fill : Nat) : Option (TwoD Nat) :=
  let storage := List.replicate ((width * height) % UINT_RANGE) fill
  if 0 < width then
    if 0 < height then some ⟨width, height, storage⟩ else none
  else none

/-- Modelled from the spec: `TwoD::at` of the missing `2d.hh` ("`at(column,row)`
returns a reference to one sample; fails if either index is out of the view's
declared extent"). The reference is the row-major index into `storage_`. -/
def TwoD.at {α : Type} (t : TwoD α) (column row : Nat) : Option Nat :=
  if column < t.width_ ∧ row < t.height_ then some (row * t.width_ + column) else none

/-- Read through a reference obtained from `TwoD.at`; `none` when the reference
points outside `storage_`. -/
def TwoD.load {α : Type} (t : TwoD α) (ref : Nat) : Option α :=
  t.storage_[ref]?

/-- Write through a reference obtained from `TwoD.at`; `none` when the reference
points outside `storage_`. -/
def TwoD.store {α : Type} (t : TwoD α) (ref : Nat) (v : α) : Option (TwoD α) :=
  if ref < t.storage_.length then some { t with storage_ := t.storage_.set ref v } else none

/-- Value of `at( column, row )` read as an rvalue. -/
def TwoD.get {α : Type} (t : TwoD α) (column row : Nat) : Option α :=
  (t.at column row).bind t.load

/-- Modelled from the spec: `TwoD< T >::Context` of the missing `2d.hh`, the
position of an element within its lattice ("column/row index within its parent
lattice"); the neighbour flags are functions of the position. -/
structure Context where
  column : Nat
  row : Nat
deriving DecidableEq, Repr

/-- The element has a neighbour above it ("is topmost row" is its negation). -/
def Context.has_above (c : Context) : Bool := decide (0 < c.row)

/-- The element has a neighbour to its left ("is leftmost column" is its negation). -/
def Context.has_left (c : Context) : Bool := decide (0 < c.column)

/-- All elements of a list of results, or `none` if one of them failed. -/
def allSome {α : Type} : List (Option α) → Option (List α)
  | [] => some []
  | none :: _ => none
  | some a :: xs => (allSome xs).map fun as => a :: as

/-- The contexts of a `width` x `height` lattice in construction order: row by
row, each row from column 0 upwards. -/
def lattice_contexts (width height : Nat) : List Context :=
  (List.range height).flatMap fun row => (List.range width).map fun column => ⟨column, row⟩

/-- Modelled from the spec: the generic `TwoD< T >::TwoD( width, height, Fargs... )`
of the missing `2d.hh` ("construction requires width>0 and height>0"; a lattice
element is built from its `Context` and the forwarded arguments). `elem` is the
element constructor, which may itself fail an assertion. -/
def TwoD.construct_lattice {α : Type} (width height : Nat) (elem : Context → Option α) :
    Option (TwoD α) :=
  if 0 < width ∧ 0 < height then
    match allSome ((lattice_contexts width height).map elem) with
    | some storage => some ⟨width, height, storage⟩
    | none => none
  else none

/-- `TwoDSubRange< T, sub_width, sub_height >`: a window of fixed size into a
master `TwoD`, given by the master coordinates of its top-left element. -/
structure TwoDSubRange (sub_width sub_height : Nat) where
  column_ : Nat
  row_ : Nat
deriving DecidableEq, Repr

/-- Modelled from the spec: constructor of `TwoDSubRange` in the missing `2d.hh`
("fails if the requested rectangle is not fully contained in the parent"). -/
def TwoDSubRange.construct {α : Type} (sub_width sub_height : Nat) (master : TwoD α)
    (column row : Nat) : Option (TwoDSubRange sub_width sub_height) :=
  if column + sub_width ≤ master.width_ ∧ row + sub_height ≤ master.height_ then
    some ⟨column, row⟩
  else none

/-- Modelled from the spec: `TwoDSubRange::at` of the missing `2d.hh` (bounds
check against the window, then the master's `at` at the offset position). The
result is a reference into the master's storage. -/
def TwoDSubRange.at {α : Type} {sub_width sub_height : Nat}
    (s : TwoDSubRange sub_width sub_height) (master : TwoD α) (column row : Nat) : Option Nat :=
  if column < sub_width ∧ row < sub_height then master.at (s.column_ + column) (s.row_ + row)
  else none

/-! ## Blocks, macroblocks and the raster -/

/-- `Raster::Block< size >` (raster.hh 32-121): the `contents_` window into a
sample plane and the `context_` of the block in its lattice. The predictors are
references into the same plane and are resolved when a prediction reads them. -/
structure Block (size : Nat) where
  contents_ : TwoDSubRange size size
  context_ : Context
deriving DecidableEq, Repr

/-- Modelled from the spec: `Block::Block( c, raster_component )` (declared at
raster.hh 86, body missing): the block at lattice position `c` views the
`size` x `size` samples at plane position `size * c.column`, `size * c.row`. -/
def Block.construct (size : Nat) (c : Context) (raster_component : TwoD Nat) :
    Option (Block size) :=
  (TwoDSubRange.construct size size raster_component (size * c.column) (size * c.row)).map
    fun contents => ⟨contents, c⟩

/-- `Block::at` (raster.hh 88-92): `contents_.at( column, row )`, a reference into
the plane `raster_component` the block was built over. -/
def Block.at {size : Nat} (b : Block size) (raster_component : TwoD Nat) (column row : Nat) :
    Option Nat :=
  b.contents_.at raster_component column row

/-- `Raster::Macroblock` (raster.hh 127-139): the three big blocks and the
windows into the sub-block lattices. -/
structure Macroblock where
  Y : Block 16
  U : Block 8
  V : Block 8
  Y_sub : TwoDSubRange 4 4
  U_sub : TwoDSubRange 2 2
  V_sub : TwoDSubRange 2 2
deriving DecidableEq, Repr

/-- Modelled from the spec: `Macroblock::Macroblock( c, raster )` (declared at
raster.hh 135, body missing): the big blocks at the macroblock's own grid
position, and sub-block windows with origin `4 * column, 4 * row` (luma) and
`2 * column, 2 * row` (chroma). -/
def Macroblock.construct (c : Context)
    (Y_bigblocks : TwoD (Block 16)) (U_bigblocks V_bigblocks : TwoD (Block 8))
    (Y_subblocks U_subblocks V_subblocks : TwoD (Block 4)) : Option Macroblock := do
  let Y ← Y_bigblocks.get c.column c.row
  let U ← U_bigblocks.get c.column c.row
  let V ← V_bigblocks.get c.column c.row
  let Y_sub ← TwoDSubRange.construct 4 4 Y_subblocks (4 * c.column) (4 * c.row)
  let U_sub ← TwoDSubRange.construct 2 2 U_subblocks (2 * c.column) (2 * c.row)
  let V_sub ← TwoDSubRange.construct 2 2 V_subblocks (2 * c.column) (2 * c.row)
  some ⟨Y, U, V, Y_sub, U_sub, V_sub⟩

/-- `Raster::macroblock_dimension` (raster.hh 186): `( num + 15 ) / 16` in
`unsigned int` arithmetic. -/
def macroblock_dimension (num : Nat) : Nat := ((num + 15) % UINT_RANGE) / 16

/-- `Raster` (raster.hh 141-158): the data members in declaration order. -/
structure Raster where
  display_width_ : Nat
  display_height_ : Nat
  width_ : Nat
  height_ : Nat
  Y_ : TwoD Nat
  U_ : TwoD Nat
  V_ : TwoD Nat
  Y_subblocks_ : TwoD (Block 4)
  U_subblocks_ : TwoD (Block 4)
  V_subblocks_ : TwoD (Block 4)
  Y_bigblocks_ : TwoD (Block 16)
  U_bigblocks_ : TwoD (Block 8)
  V_bigblocks_ : TwoD (Block 8)
  macroblocks_ : TwoD Macroblock
deriving DecidableEq, Repr

/-- `Raster::Raster( display_width, display_height )`: the default member
initialisers of raster.hh 142-158 in declaration order.
Modelled from the spec: the constructor body is missing; it stores its two
arguments in `display_width_` and `display_height_` ("preserving the original
display_width/display_height"). -/
def Raster.construct (display_width display_height : Nat) : Option Raster := do
  let width := (16 * macroblock_dimension display_width) % UINT_RANGE
  let height := (16 * macroblock_dimension display_height) % UINT_RANGE
  let Y ← TwoD.construct width height 0
  let U ← TwoD.construct (width / 2) (height / 2) 0
  let V ← TwoD.construct (width / 2) (height / 2) 0
  let Y_subblocks ← TwoD.construct_lattice (width / 4) (height / 4) fun c => Block.construct 4 c Y
  let U_subblocks ← TwoD.construct_lattice (width / 8) (height / 8) fun c => Block.construct 4 c U
  let V_subblocks ← TwoD.construct_lattice (width / 8) (height / 8) fun c => Block.construct 4 c V
  let Y_bigblocks ← TwoD.construct_lattice (width / 16) (height / 16) fun c => Block.construct 16 c Y
  let U_bigblocks ← TwoD.construct_lattice (width / 16) (height / 16) fun c => Block.construct 8 c U
  let V_bigblocks ← TwoD.construct_lattice (width / 16) (height / 16) fun c => Block.construct 8 c V
  let macroblocks ← TwoD.construct_lattice (width / 16) (height / 16) fun c =>
    Macroblock.construct c Y_bigblocks U_bigblocks V_bigblocks Y_subblocks U_subblocks V_subblocks
  some ⟨display_width, display_height, width, height, Y, U, V,
    Y_subblocks, U_subblocks, V_subblocks, Y_bigblocks, U_bigblocks, V_bigblocks, macroblocks⟩

/-- `Raster::width` (raster.hh 181). -/
def Raster.width (r : Raster) : Nat := r.width_

/-- `Raster::height` (raster.hh 182). -/
def Raster.height (r : Raster) : Nat := r.height_

/-- `Raster::display_width` (raster.hh 183). -/
def Raster.display_width (r : Raster) : Nat := r.display_width_

/-- `Raster::display_height` (raster.hh 184). -/
def Raster.display_height (r : Raster) : Nat := r.display_height_

/-- `Raster::macroblock` (raster.hh 171-179): `macroblocks_.at( column, row )`. -/
def Raster.macroblock (r : Raster) (column row : Nat) : Option Macroblock :=
  r.macroblocks_.get column row


/-! ## Auxiliary definitions for the statements -/

/-- The lattice whose element at every position is `g` of the position. -/
def lattice_of {α : Type} (width height : Nat) (g : Context → α) : TwoD α :=
  ⟨width, height, (lattice_contexts width height).map g⟩

/-- The raster that `Raster.construct` builds when no assertion fails: padded
dimensions, zeroed planes, and lattices whose elements view the windows given by
their grid position. -/
def Raster.padded (display_width display_height : Nat) : Raster :=
  let width := 16 * ((display_width + 15) / 16)
  let height := 16 * ((display_height + 15) / 16)
  let plane := fun (w h : Nat) => (⟨w, h, List.replicate ((w * h) % UINT_RANGE) 0⟩ : TwoD Nat)
  let block := fun (size : Nat) (c : Context) =>
    (⟨⟨size * c.column, size * c.row⟩, c⟩ : Block size)
  { display_width_ := display_width
    display_height_ := display_height
    width_ := width
    height_ := height
    Y_ := plane width height
    U_ := plane (width / 2) (height / 2)
    V_ := plane (width / 2) (height / 2)
    Y_subblocks_ := lattice_of (width / 4) (height / 4) (block 4)
    U_subblocks_ := lattice_of (width / 8) (height / 8) (block 4)
    V_subblocks_ := lattice_of (width / 8) (height / 8) (block 4)
    Y_bigblocks_ := lattice_of (width / 16) (height / 16) (block 16)
    U_bigblocks_ := lattice_of (width / 16) (height / 16) (block 8)
    V_bigblocks_ := lattice_of (width / 16) (height / 16) (block 8)
    macroblocks_ := lattice_of (width / 16) (height / 16) fun c =>
      ⟨block 16 c, block 8 c, block 8 c, ⟨4 * c.column, 4 * c.row⟩,
        ⟨2 * c.column, 2 * c.row⟩, ⟨2 * c.column, 2 * c.row⟩⟩ }


/-! ## Reading and writing samples through views -/

/-- Value of `at( column, row )` of a window, read as an rvalue. -/
def TwoDSubRange.get {α : Type} {sub_width sub_height : Nat}
    (s : TwoDSubRange sub_width sub_height) (master : TwoD α) (column row : Nat) : Option α :=
  (s.at master column row).bind master.load

/-- Sample read `block.at( column, row )` as an rvalue, in the plane state `p`. -/
def Block.read {size : Nat} (b : Block size) (p : TwoD Nat) (column row : Nat) : Option Nat :=
  (b.at p column row).bind p.load

/-- Modelled from the spec: `TwoDSubRange::forall_ij` of the missing `2d.hh`, used
by the predictors to fill a block: every position of the window, row by row,
is assigned `f column row`. A failed `at` or a failed `f` aborts the loop. -/
def TwoDSubRange.forall_ij {sub_width sub_height : Nat} (s : TwoDSubRange sub_width sub_height)
    (master : TwoD Nat) (f : Nat → Nat → Option Nat) : Option (TwoD Nat) :=
  (lattice_contexts sub_width sub_height).foldlM
    (fun m c => (s.at m c.column c.row).bind fun ref =>
      (f c.column c.row).bind fun v => m.store ref v)
    master

/-- The plane holds a sample for each of its `width_ * height_` positions. -/
def TwoD.full {α : Type} (t : TwoD α) : Prop := t.storage_.length = t.width_ * t.height_

instance {α : Type} (t : TwoD α) : Decidable t.full := by
  unfold TwoD.full
  infer_instance

/-- The window of the view lies inside the master. -/
def TwoDSubRange.inside {α : Type} {sub_width sub_height : Nat}
    (s : TwoDSubRange sub_width sub_height) (master : TwoD α) : Prop :=
  s.column_ + sub_width ≤ master.width_ ∧ s.row_ + sub_height ≤ master.height_

instance {α : Type} {sub_width sub_height : Nat} (s : TwoDSubRange sub_width sub_height)
    (master : TwoD α) : Decidable (s.inside master) := by
  unfold TwoDSubRange.inside
  infer_instance


/-! ## Intra prediction -/

/-- Modelled from the spec: the values behind `Block::Predictors` (raster.hh
57-79) when a prediction reads them: "above row (N samples), left column (N
samples), above-left corner sample, above-right extension row (N samples)". -/
structure Predictors (size : Nat) where
  above_row : List Nat
  left_column : List Nat
  above_left : Nat
  above_right : List Nat
deriving DecidableEq, Repr

/-- Modelled from the spec: `Predictors::above` (declared at raster.hh 74, body
missing), "translating a predictor-relative index (which may legitimately be
negative, meaning the corner) into the correct one of these sources": index -1
is the corner, `0 .. size - 1` the above row, `size .. 2 * size - 1` the
above-right extension; any other index fails. -/
def Predictors.above {size : Nat} (pr : Predictors size) (column : Int) : Option Nat :=
  if column = -1 then some pr.above_left
  else if 0 ≤ column ∧ column < size then pr.above_row[column.toNat]?
  else if (size : Int) ≤ column ∧ column < 2 * size then pr.above_right[(column - size).toNat]?
  else none

/-- Modelled from the spec: `Predictors::left` (declared at raster.hh 75, body
missing): index -1 is the corner, `0 .. size - 1` the left column; any other
index fails. -/
def Predictors.left {size : Nat} (pr : Predictors size) (row : Int) : Option Nat :=
  if row = -1 then some pr.above_left
  else if 0 ≤ row ∧ row < size then pr.left_column[row.toNat]?
  else none

/-- The predictors hold `size` samples per row and column, each in [0, 255]. -/
def Predictors.valid {size : Nat} (pr : Predictors size) : Prop :=
  pr.above_row.length = size ∧ pr.left_column.length = size ∧
  (∀ x ∈ pr.above_row, x ≤ 255) ∧ (∀ x ∈ pr.left_column, x ≤ 255) ∧ pr.above_left ≤ 255

/-- Modelled from the spec: the sample that `Block::true_motion_predict` (declared
at raster.hh 47, body missing) writes at `(column, row)`:
"sample(c,r) = clamp255( left(r) + above(c) - corner )", the sum taken in `int`. -/
def true_motion_sample {size : Nat} (pr : Predictors size) (column row : Nat) : Option Nat :=
  (pr.left row).bind fun l => (pr.above column).bind fun a => (pr.above (-1)).bind fun k =>
    some (clamp255 ((l : Int) + (a : Int) - (k : Int)))

/-- Modelled from the spec: `Block::true_motion_predict`, "independently clamped
per output sample", written into the block's own storage. -/
def Block.true_motion_predict {size : Nat} (b : Block size) (pr : Predictors size)
    (p : TwoD Nat) : Option (TwoD Nat) :=
  b.contents_.forall_ij p (true_motion_sample pr)

/-- Modelled from the spec: `Block::vertical_predict` (declared at raster.hh 45):
"each column of the block copies the corresponding above-row sample". -/
def Block.vertical_predict {size : Nat} (b : Block size) (pr : Predictors size)
    (p : TwoD Nat) : Option (TwoD Nat) :=
  b.contents_.forall_ij p fun column _ => pr.above column

/-- Modelled from the spec: `Block::horizontal_predict` (declared at raster.hh 46):
"each row copies the corresponding left-column sample". -/
def Block.horizontal_predict {size : Nat} (b : Block size) (pr : Predictors size)
    (p : TwoD Nat) : Option (TwoD Nat) :=
  b.contents_.forall_ij p fun _ row => pr.left row

/-- Modelled from the spec: `contents_.fill( value )`: every sample of the block
becomes `value`, stored as a `uint8_t`. -/
def Block.fill {size : Nat} (b : Block size) (value : Nat) (p : TwoD Nat) : Option (TwoD Nat) :=
  b.contents_.forall_ij p fun _ _ => some (value % 256)

/-- Modelled from the spec: `Block::dc_predict_simple` (declared at raster.hh 44):
"average of the above row and left column", "rounded to nearest integer". -/
def Block.dc_predict_simple {size : Nat} (b : Block size) (pr : Predictors size)
    (p : TwoD Nat) : Option (TwoD Nat) :=
  b.fill ((pr.above_row.sum + pr.left_column.sum + size) / (2 * size)) p

/-- Modelled from the spec: `Block::dc_predict` (declared at raster.hh 43):
"average of the above row and left column; if only one side exists, the average
of that side alone; if neither exists (first block of the frame), constant 128.
Values rounded to nearest integer". -/
def Block.dc_predict {size : Nat} (b : Block size) (pr : Predictors size)
    (p : TwoD Nat) : Option (TwoD Nat) :=
  if b.context_.has_above && b.context_.has_left then b.dc_predict_simple pr p
  else if b.context_.has_above then b.fill ((pr.above_row.sum + size / 2) / size) p
  else if b.context_.has_left then b.fill ((pr.left_column.sum + size / 2) / size) p
  else b.fill 128 p

/-- Modelled from the spec: the prediction modes whose algorithm the
specification gives in full; the smoothed and diagonal 4 x 4 modes depend on
weight tables that are not part of the material. -/
inductive PredictionMode where
  | DC_PRED
  | V_PRED
  | H_PRED
  | TM_PRED
deriving DecidableEq, Repr

/-- Modelled from the spec: `Block::intra_predict` (declared at raster.hh 100-101,
body missing): dispatch on the mode; the block is filled "purely from the
Predictors". -/
def Block.intra_predict {size : Nat} (b : Block size) (mode : PredictionMode)
    (pr : Predictors size) (p : TwoD Nat) : Option (TwoD Nat) :=
  match mode with
  | .DC_PRED => b.dc_predict pr p
  | .V_PRED => b.vertical_predict pr p
  | .H_PRED => b.horizontal_predict pr p
  | .TM_PRED => b.true_motion_predict pr p

/-! ## Inter prediction -/

/-- `MotionVector` (forward-declared at raster.hh 9): "signed horizontal/vertical
displacement in fractional-pixel units, consumed opaquely". -/
structure MotionVector where
  x : Int
  y : Int
deriving DecidableEq, Repr

/-- Modelled from the spec: the external sub-pixel interpolation filter, "an
external, deterministic filter bank keyed by the fractional part of the motion
vector". For a motion vector, `taps` lists the offsets (column, row) of the
reference samples one output sample is computed from, relative to the output
sample's source position, and `combine` computes the output sample from the
values of the taps, in the same order. -/
structure InterpolationFilter where
  taps : MotionVector → List (Int × Int)
  combine : MotionVector → List Nat → Nat

/-- Modelled from the spec: read of `reference.at( column, row )` at signed
coordinates without substitution: fails outside the plane's extent. -/
def TwoD.at_signed (reference : TwoD Nat) (column row : Int) : Option Nat :=
  if 0 ≤ column ∧ 0 ≤ row then reference.get column.toNat row.toNat else none

/-- Modelled from the spec: "out-of-range source coordinates are clamped to the
nearest in-bounds coordinate". -/
def clamp_coordinate (v : Int) (extent : Nat) : Nat :=
  if v < 0 then 0
  else if (extent : Int) ≤ v then extent - 1
  else v.toNat

/-- Modelled from the spec: read of the reference with edge-pixel replication. -/
def TwoD.at_clamped (reference : TwoD Nat) (column row : Int) : Option Nat :=
  reference.get (clamp_coordinate column reference.width_) (clamp_coordinate row reference.height_)

/-- Modelled from the spec: one output sample of the motion-compensated copy: the
taps are read around source position `(source_column + column, source_row + row)`
through `read` and combined by the filter. -/
def inter_sample (read : Int → Int → Option Nat) (filter : InterpolationFilter)
    (mv : MotionVector) (source_column source_row : Int) (column row : Nat) : Option Nat :=
  (allSome ((filter.taps mv).map fun t =>
      read (source_column + column + t.1) (source_row + row + t.2))).map
    fun samples => filter.combine mv samples

/-- Modelled from the spec: `Block::unsafe_inter_predict` (declared at raster.hh
109-110, body missing): "copies an N x N patch from `reference` at the computed
source position ... into the block's storage", trusting that the footprint lies
inside the reference. -/
def Block.unsafe_inter_predict {size : Nat} (b : Block size) (filter : InterpolationFilter)
    (mv : MotionVector) (reference : TwoD Nat) (source_column source_row : Int)
    (p : TwoD Nat) : Option (TwoD Nat) :=
  b.contents_.forall_ij p
    (inter_sample reference.at_signed filter mv source_column source_row)

/-- Modelled from the spec: `Block::safe_inter_predict` (declared at raster.hh
105-107, body missing): the same copy with every source coordinate clamped into
the reference before it is read. -/
def Block.safe_inter_predict {size : Nat} (b : Block size) (filter : InterpolationFilter)
    (mv : MotionVector) (reference : TwoD Nat) (source_column source_row : Int)
    (p : TwoD Nat) : Option (TwoD Nat) :=
  b.contents_.forall_ij p
    (inter_sample reference.at_clamped filter mv source_column source_row)


/-- The whole sampled footprint of an inter prediction lies inside the reference
plane: every tap of every output sample. -/
def footprint_in_bounds (size : Nat) (filter : InterpolationFilter) (mv : MotionVector)
    (reference : TwoD Nat) (source_column source_row : Int) : Prop :=
  ∀ column row : Nat, column < size → row < size → ∀ t ∈ filter.taps mv,
    (0 ≤ source_column + column + t.1 ∧ source_column + column + t.1 < reference.width_) ∧
    (0 ≤ source_row + row + t.2 ∧ source_row + row + t.2 < reference.height_)


/-! ## Several rasters at once: macroblock assignment and comparison -/

/-- The three sample planes of a raster. -/
inductive Component where
  | Y
  | U
  | V
deriving DecidableEq, Repr

/-- `Raster::Y`, `Raster::U`, `Raster::V` (raster.hh 163-169). -/
def Raster.plane (r : Raster) : Component → TwoD Nat
  | .Y => r.Y_
  | .U => r.U_
  | .V => r.V_

/-- The raster with one of its planes replaced by a new state of that plane. -/
def Raster.set_plane (r : Raster) (comp : Component) (p : TwoD Nat) : Raster :=
  match comp with
  | .Y => { r with Y_ := p }
  | .U => { r with U_ := p }
  | .V => { r with V_ := p }

/-- A reference to a sample (`uint8_t &`) when several rasters are alive: the
raster (by its position in the list of rasters), the plane, and the index into
the plane's storage. -/
structure SampleRef where
  raster : Nat
  component : Component
  ref : Nat
deriving DecidableEq, Repr

/-- Read through a sample reference. -/
def Frames.load (fs : List Raster) (l : SampleRef) : Option Nat :=
  fs[l.raster]?.bind fun r => (r.plane l.component).load l.ref

/-- Write through a sample reference. -/
def Frames.store (fs : List Raster) (l : SampleRef) (v : Nat) : Option (List Raster) :=
  fs[l.raster]?.bind fun r =>
    ((r.plane l.component).store l.ref v).map fun p =>
      fs.set l.raster (r.set_plane l.component p)

/-- Width, height and number of stored samples of plane `comp` of raster `i`, if
that raster exists. -/
def Frames.shape (fs : List Raster) (i : Nat) (comp : Component) : Option (Nat × Nat × Nat) :=
  fs[i]?.map fun r =>
    ((r.plane comp).width_, (r.plane comp).height_, (r.plane comp).storage_.length)

/-- The reference `block.at( column, row )` of a block of plane `comp` of raster
number `i`. -/
def Block.sample_ref {size : Nat} (b : Block size) (fs : List Raster) (i : Nat)
    (comp : Component) (column row : Nat) : Option SampleRef :=
  fs[i]?.bind fun r => (b.at (r.plane comp) column row).map fun ref => ⟨i, comp, ref⟩

/-- The references of all samples of a block, row by row. -/
def Block.sample_refs {size : Nat} (b : Block size) (fs : List Raster) (i : Nat)
    (comp : Component) : Option (List SampleRef) :=
  allSome ((lattice_contexts size size).map fun c => b.sample_ref fs i comp c.column c.row)

/-- Sample-by-sample copy: for each pair, in order, the destination (first)
is assigned the value read from the source (second). -/
def Frames.copy : List (SampleRef × SampleRef) → List Raster → Option (List Raster)
  | [], fs => some fs
  | x :: rest, fs =>
    (Frames.load fs x.2).bind fun v => (Frames.store fs x.1 v).bind fun fs2 =>
      Frames.copy rest fs2

/-- Modelled from the spec: `Block::operator=` (declared at raster.hh 118, body
missing): "copy contents" of the other block, position by position. Block `a`
lives in plane `comp` of raster `ia`, block `b` in the same plane of raster `ib`. -/
def Block.assign {size : Nat} (a : Block size) (ia : Nat) (b : Block size) (ib : Nat)
    (comp : Component) (fs : List Raster) : Option (List Raster) :=
  (a.sample_refs fs ia comp).bind fun dsts => (b.sample_refs fs ib comp).bind fun srcs =>
    Frames.copy (dsts.zip srcs) fs

/-- Modelled from the spec: `Block::operator==` (declared at raster.hh 119, body
missing): "equality compares contents". -/
def Block.equal {size : Nat} (a : Block size) (ia : Nat) (b : Block size) (ib : Nat)
    (comp : Component) (fs : List Raster) : Option Bool :=
  (a.sample_refs fs ia comp).bind fun ras => (b.sample_refs fs ib comp).bind fun rbs =>
    (allSome (ras.map (Frames.load fs))).bind fun va =>
      (allSome (rbs.map (Frames.load fs))).bind fun vb => some (decide (va = vb))

/-- A `Macroblock &`: the raster the macroblock belongs to and its views. -/
structure MacroblockRef where
  raster : Nat
  mb : Macroblock
deriving DecidableEq, Repr

/-- Modelled from the spec: `Macroblock::operator=` (declared at raster.hh 137,
body missing): "copy contents of all owned blocks (luma, two chroma)". -/
def Macroblock.assign (a b : MacroblockRef) (fs : List Raster) : Option (List Raster) :=
  (a.mb.Y.assign a.raster b.mb.Y b.raster Component.Y fs).bind fun fs1 =>
    (a.mb.U.assign a.raster b.mb.U b.raster Component.U fs1).bind fun fs2 =>
      a.mb.V.assign a.raster b.mb.V b.raster Component.V fs2

/-- Modelled from the spec: `Macroblock::operator==` (declared at raster.hh 138,
body missing): "equality compares contents of all blocks". -/
def Macroblock.equal (a b : MacroblockRef) (fs : List Raster) : Option Bool :=
  (a.mb.Y.equal a.raster b.mb.Y b.raster Component.Y fs).bind fun ey =>
    (a.mb.U.equal a.raster b.mb.U b.raster Component.U fs).bind fun eu =>
      (a.mb.V.equal a.raster b.mb.V b.raster Component.V fs).bind fun ev =>
        some (ey && eu && ev)

/-- Side length of a macroblock's block in a plane: 16 for luma, 8 for chroma. -/
def Component.size : Component → Nat
  | .Y => 16
  | .U => 8
  | .V => 8

/-- The macroblock's block in plane `comp`: `Y`, `U` or `V`. -/
def Macroblock.block (mb : Macroblock) : (comp : Component) → Block comp.size
  | .Y => mb.Y
  | .U => mb.U
  | .V => mb.V

/-- The reference to sample `(column, row)` of the macroblock's block in plane
`comp`: `mb.Y.at( column, row )`, `mb.U.at( column, row )` or `mb.V.at( column, row )`. -/
def MacroblockRef.sample (m : MacroblockRef) (fs : List Raster) (comp : Component)
    (column row : Nat) : Option SampleRef :=
  (m.mb.block comp).sample_ref fs m.raster comp column row

/-- Two windows of the same master do not overlap. -/
def TwoDSubRange.disjoint {sub_width sub_height : Nat}
    (s t : TwoDSubRange sub_width sub_height) : Prop :=
  s.column_ + sub_width ≤ t.column_ ∨ t.column_ + sub_width ≤ s.column_ ∨
  s.row_ + sub_height ≤ t.row_ ∨ t.row_ + sub_height ≤ s.row_

/-- The macroblock's raster exists, its three blocks lie inside their planes and
the planes hold all their samples. -/
def MacroblockRef.valid_in (m : MacroblockRef) (fs : List Raster) : Prop :=
  ∃ r : Raster, fs[m.raster]? = some r ∧
    ∀ comp : Component, (m.mb.block comp).contents_.inside (r.plane comp) ∧ (r.plane comp).full

/-- The two macroblocks are different objects: they belong to different rasters
or their blocks do not overlap. -/
def MacroblockRef.disjoint (a b : MacroblockRef) : Prop :=
  a.raster ≠ b.raster ∨
    ∀ comp : Component, (a.mb.block comp).contents_.disjoint (b.mb.block comp).contents_

/-- A raster in any state it can be in after a construction whose planes hold
all their samples: the macroblock grid and the plane dimensions are those the
constructor built, and only the samples stored in the planes may differ. -/
def Raster.valid (r : Raster) : Prop :=
  ∃ (dw dh : Nat) (r0 : Raster), dw < UINT_RANGE ∧ dh < UINT_RANGE ∧
    Raster.construct dw dh = some r0 ∧
    r.macroblocks_ = r0.macroblocks_ ∧
    ∀ comp : Component,
      (r.plane comp).width_ = (r0.plane comp).width_ ∧
      (r.plane comp).height_ = (r0.plane comp).height_ ∧
      (r.plane comp).full


/-! ## Resolving the predictors of a block -/

/-- Modelled from the spec: `Predictors::row127` (declared at raster.hh 58), "a
constant row of value 127". -/
def row127 (size : Nat) : List Nat := List.replicate size 127

/-- Modelled from the spec: `Predictors::col129` (declared at raster.hh 59), "a
constant column of value 129". -/
def col129 (size : Nat) : List Nat := List.replicate size 129

/-- Modelled from the spec: `Predictors::Predictors( context )` (declared at
raster.hh 78, body missing), read in the plane state `p`.
"Above row: if the block has a decoded row immediately above it, that row;
otherwise (topmost row of the frame) a constant row of value 127. Left column:
if the block has a decoded column immediately to its left, that column;
otherwise (leftmost column of the frame) a constant column of value 129.
Above-left corner: the single sample diagonally up-left; at the frame's
top-left corner this takes the edge-substitute convention (129)."
Where only one neighbour is missing the corner lies in the substituted row or
column and takes its value: 127 in the topmost row, 129 in the leftmost column.
The above-right extension is set by the containing macroblock and is passed in. -/
def Block.predictors {size : Nat} (b : Block size) (p : TwoD Nat) (above_right : List Nat) :
    Option (Predictors size) :=
  let above_row : Option (List Nat) :=
    if b.context_.has_above then
      allSome ((List.range size).map fun column =>
        p.get (b.contents_.column_ + column) (b.contents_.row_ - 1))
    else some (row127 size)
  let left_column : Option (List Nat) :=
    if b.context_.has_left then
      allSome ((List.range size).map fun row =>
        p.get (b.contents_.column_ - 1) (b.contents_.row_ + row))
    else some (col129 size)
  let above_left : Option Nat :=
    if b.context_.has_above && b.context_.has_left then
      p.get (b.contents_.column_ - 1) (b.contents_.row_ - 1)
    else if b.context_.has_left then some 127
    else some 129
  above_row.bind fun a => left_column.bind fun l => above_left.bind fun k =>
    some ⟨a, l, k, above_right⟩


/-! # Lemmas and theorems -/

/-! ## Lattice construction lemmas -/

theorem allSome_map_some {α β : Type} (l : List α) (f : α → Option β) (g : α → β)
    (h : ∀ x ∈ l, f x = some (g x)) : allSome (l.map f) = some (l.map g) := by
  induction l with
  | nil => rfl
  | cons a l ih =>
    have ha : f a = some (g a) := h a (List.mem_cons_self a l)
    have hl : allSome (l.map f) = some (l.map g) :=
      ih fun x hx => h x (List.mem_cons_of_mem a hx)
    simp [allSome, ha, hl]

theorem allSome_map_none {α β : Type} (l : List α) (f : α → Option β) (x : α)
    (hx : x ∈ l) (h : f x = none) : allSome (l.map f) = none := by
  induction l with
  | nil => cases hx
  | cons a l ih =>
    rcases List.mem_cons.mp hx with rfl | hx
    · simp [allSome, h]
    · have hl := ih hx
      simp only [List.map_cons]
      cases f a <;> simp [allSome, hl]

theorem lattice_contexts_succ (w h : Nat) :
    lattice_contexts w (h + 1) =
      lattice_contexts w h ++ (List.range w).map fun column => (⟨column, h⟩ : Context) := by
  simp [lattice_contexts, List.range_succ, List.flatMap_append]

theorem lattice_contexts_length (w h : Nat) : (lattice_contexts w h).length = h * w := by
  induction h with
  | zero => simp [lattice_contexts]
  | succ h ih => rw [lattice_contexts_succ, List.length_append, ih]; simp [Nat.succ_mul]

theorem lattice_contexts_getElem (w h column row : Nat) (hc : column < w) (hr : row < h) :
    (lattice_contexts w h)[row * w + column]? = some ⟨column, row⟩ := by
  induction h with
  | zero => omega
  | succ h ih =>
    rw [lattice_contexts_succ]
    by_cases hlt : row < h
    · have hidx : row * w + column < (lattice_contexts w h).length := by
        rw [lattice_contexts_length]
        calc row * w + column < row * w + w := by omega
          _ = (row + 1) * w := by ring
          _ ≤ h * w := Nat.mul_le_mul_right w hlt
      rw [List.getElem?_append_left hidx]
      exact ih hlt
    · have hrow : row = h := by omega
      subst hrow
      rw [List.getElem?_append_right (by rw [lattice_contexts_length]; omega),
        lattice_contexts_length]
      simp [List.getElem?_map, List.getElem?_range hc]

theorem lattice_contexts_mem (w h : Nat) (c : Context) (hc : c ∈ lattice_contexts w h) :
    c.column < w ∧ c.row < h := by
  simp only [lattice_contexts, List.mem_flatMap, List.mem_map, List.mem_range] at hc
  obtain ⟨row, hrow, column, hcol, rfl⟩ := hc
  exact ⟨hcol, hrow⟩

theorem mem_lattice_contexts (w h : Nat) (c : Context) (hc : c.column < w) (hr : c.row < h) :
    c ∈ lattice_contexts w h := by
  simp only [lattice_contexts, List.mem_flatMap, List.mem_map, List.mem_range]
  exact ⟨c.row, hr, c.column, hc, rfl⟩

theorem construct_lattice_eq_some {α : Type} (w h : Nat) (elem : Context → Option α)
    (g : Context → α) (hw : 0 < w) (hh : 0 < h)
    (helem : ∀ c : Context, c.column < w → c.row < h → elem c = some (g c)) :
    TwoD.construct_lattice w h elem = some (lattice_of w h g) := by
  have hall : allSome ((lattice_contexts w h).map elem) = some ((lattice_contexts w h).map g) :=
    allSome_map_some _ _ _ fun c hc =>
      helem c (lattice_contexts_mem w h c hc).1 (lattice_contexts_mem w h c hc).2
  simp [TwoD.construct_lattice, hw, hh, hall, lattice_of]

theorem construct_lattice_zero_width {α : Type} (h : Nat) (elem : Context → Option α) :
    TwoD.construct_lattice 0 h elem = none := by
  simp [TwoD.construct_lattice]

theorem lattice_of_get {α : Type} (w h : Nat) (g : Context → α) (column row : Nat) :
    (lattice_of w h g).get column row =
      if column < w ∧ row < h then some (g ⟨column, row⟩) else none := by
  unfold TwoD.get TwoD.at TwoD.load lattice_of
  by_cases hin : column < w ∧ row < h
  · simp only [hin, and_self, if_true, Option.some_bind, List.getElem?_map,
      lattice_contexts_getElem w h column row hin.1 hin.2, Option.map_some']
  · simp [hin]

theorem lattice_of_width {α : Type} (w h : Nat) (g : Context → α) :
    (lattice_of w h g).width_ = w := rfl

theorem lattice_of_height {α : Type} (w h : Nat) (g : Context → α) :
    (lattice_of w h g).height_ = h := rfl

theorem macroblock_dimension_eq (num : Nat) (h : num + 15 < UINT_RANGE) :
    macroblock_dimension num = (num + 15) / 16 := by
  unfold macroblock_dimension
  rw [Nat.mod_eq_of_lt h]

theorem padded_width_eq (num : Nat) (h : num + 15 < UINT_RANGE) :
    (16 * macroblock_dimension num) % UINT_RANGE = 16 * ((num + 15) / 16) := by
  rw [macroblock_dimension_eq num h]
  apply Nat.mod_eq_of_lt
  unfold UINT_RANGE at *
  omega

theorem padded_width_wrap (num : Nat) (h : num < UINT_RANGE) (h2 : UINT_RANGE ≤ num + 15) :
    (16 * macroblock_dimension num) % UINT_RANGE = 0 := by
  unfold macroblock_dimension UINT_RANGE at *
  have : (num + 15) % 2 ^ 32 = num + 15 - 2 ^ 32 := by omega
  rw [this]
  have : (num + 15 - 2 ^ 32) / 16 = 0 := by omega
  rw [this]
  rfl

theorem TwoD_construct_eq (w h fill : Nat) (hw : 0 < w) (hh : 0 < h) :
    TwoD.construct w h fill = some ⟨w, h, List.replicate ((w * h) % UINT_RANGE) fill⟩ := by
  simp [TwoD.construct, hw, hh]

theorem Block_construct_eq (size : Nat) (c : Context) (p : TwoD Nat)
    (hc : size * c.column + size ≤ p.width_) (hr : size * c.row + size ≤ p.height_) :
    Block.construct size c p = some ⟨⟨size * c.column, size * c.row⟩, c⟩ := by
  simp [Block.construct, TwoDSubRange.construct, hc, hr]

theorem construct_eq_padded (dw dh : Nat) (hw0 : 0 < dw) (hw : dw + 15 < UINT_RANGE)
    (hh0 : 0 < dh) (hh : dh + 15 < UINT_RANGE) :
    Raster.construct dw dh = some (Raster.padded dw dh) := by
  obtain ⟨k, hk⟩ : ∃ k, (dw + 15) / 16 = k := ⟨_, rfl⟩
  obtain ⟨l, hl⟩ : ∃ l, (dh + 15) / 16 = l := ⟨_, rfl⟩
  have hkpos : 0 < k := by omega
  have hlpos : 0 < l := by omega
  have e2w : 16 * k / 2 = 8 * k := by omega
  have e4w : 16 * k / 4 = 4 * k := by omega
  have e8w : 16 * k / 8 = 2 * k := by omega
  have e16w : 16 * k / 16 = k := by omega
  have e2h : 16 * l / 2 = 8 * l := by omega
  have e4h : 16 * l / 4 = 4 * l := by omega
  have e8h : 16 * l / 8 = 2 * l := by omega
  have e16h : 16 * l / 16 = l := by omega
  unfold Raster.construct Raster.padded
  simp only [padded_width_eq dw hw, padded_width_eq dh hh, hk, hl,
    e2w, e4w, e8w, e16w, e2h, e4h, e8h, e16h]
  rw [TwoD_construct_eq (16 * k) (16 * l) 0 (by omega) (by omega),
    TwoD_construct_eq (8 * k) (8 * l) 0 (by omega) (by omega)]
  simp only [Option.bind_eq_bind, Option.some_bind]
  rw [construct_lattice_eq_some (4 * k) (4 * l) _ (fun c => ⟨⟨4 * c.column, 4 * c.row⟩, c⟩)
      (by omega) (by omega)
      (fun c hc hr => Block_construct_eq 4 c _ (by simp only; omega) (by simp only; omega))]
  simp only [Option.some_bind]
  rw [construct_lattice_eq_some (2 * k) (2 * l) _ (fun c => ⟨⟨4 * c.column, 4 * c.row⟩, c⟩)
      (by omega) (by omega)
      (fun c hc hr => Block_construct_eq 4 c _ (by simp only; omega) (by simp only; omega))]
  simp only [Option.some_bind]
  rw [construct_lattice_eq_some k l _ (fun c => ⟨⟨16 * c.column, 16 * c.row⟩, c⟩)
      (by omega) (by omega)
      (fun c hc hr => Block_construct_eq 16 c _ (by simp only; omega) (by simp only; omega))]
  simp only [Option.some_bind]
  rw [construct_lattice_eq_some k l _ (fun c => ⟨⟨8 * c.column, 8 * c.row⟩, c⟩)
      (by omega) (by omega)
      (fun c hc hr => Block_construct_eq 8 c _ (by simp only; omega) (by simp only; omega))]
  simp only [Option.some_bind]
  rw [construct_lattice_eq_some k l _
      (fun c => (⟨⟨⟨16 * c.column, 16 * c.row⟩, c⟩, ⟨⟨8 * c.column, 8 * c.row⟩, c⟩,
        ⟨⟨8 * c.column, 8 * c.row⟩, c⟩, ⟨4 * c.column, 4 * c.row⟩,
        ⟨2 * c.column, 2 * c.row⟩, ⟨2 * c.column, 2 * c.row⟩⟩ : Macroblock))
      (by omega) (by omega)]
  · rfl
  · intro c hc hr
    have h4 : 4 * c.column + 4 ≤ 4 * k ∧ 4 * c.row + 4 ≤ 4 * l := by constructor <;> omega
    have h2 : 2 * c.column + 2 ≤ 2 * k ∧ 2 * c.row + 2 ≤ 2 * l := by constructor <;> omega
    simp only [Macroblock.construct, lattice_of_get, hc, hr, and_self, if_true,
      Option.bind_eq_bind, Option.some_bind, TwoDSubRange.construct, lattice_of_width,
      lattice_of_height, h4, h2]


theorem construct_none_of_width_zero (dw dh : Nat)
    (h : (16 * macroblock_dimension dw) % UINT_RANGE = 0) : Raster.construct dw dh = none := by
  unfold Raster.construct
  simp only [h]
  rfl

theorem construct_none_of_height_zero (dw dh : Nat)
    (h : (16 * macroblock_dimension dh) % UINT_RANGE = 0) : Raster.construct dw dh = none := by
  unfold Raster.construct
  simp only [h]
  have : ∀ w : Nat, TwoD.construct w 0 0 = none := by
    intro w
    simp [TwoD.construct]
  rw [this]
  rfl

theorem construct_cases (dw dh : Nat) (hdw : dw < UINT_RANGE) (hdh : dh < UINT_RANGE) :
    (0 < dw ∧ dw + 15 < UINT_RANGE ∧ 0 < dh ∧ dh + 15 < UINT_RANGE ∧
        Raster.construct dw dh = some (Raster.padded dw dh)) ∨
      Raster.construct dw dh = none := by
  by_cases hw0 : 0 < dw
  · by_cases hw : dw + 15 < UINT_RANGE
    · by_cases hh0 : 0 < dh
      · by_cases hh : dh + 15 < UINT_RANGE
        · exact Or.inl ⟨hw0, hw, hh0, hh, construct_eq_padded dw dh hw0 hw hh0 hh⟩
        · exact Or.inr (construct_none_of_height_zero dw dh
            (padded_width_wrap dh hdh (by omega)))
      · have : dh = 0 := by omega
        subst this
        exact Or.inr (construct_none_of_height_zero dw 0 rfl)
    · exact Or.inr (construct_none_of_width_zero dw dh (padded_width_wrap dw hdw (by omega)))
  · have : dw = 0 := by omega
    subst this
    exact Or.inr (construct_none_of_width_zero 0 dh rfl)

theorem construct_some_eq_padded (dw dh : Nat) (hdw : dw < UINT_RANGE) (hdh : dh < UINT_RANGE)
    (r : Raster) (h : Raster.construct dw dh = some r) :
    0 < dw ∧ dw + 15 < UINT_RANGE ∧ 0 < dh ∧ dh + 15 < UINT_RANGE ∧ r = Raster.padded dw dh := by
  rcases construct_cases dw dh hdw hdh with ⟨h1, h2, h3, h4, h5⟩ | hnone
  · rw [h5] at h
    exact ⟨h1, h2, h3, h4, (Option.some.inj h).symm⟩
  · rw [hnone] at h
    cases h

theorem ceil_div_sixteen (n : Nat) : ⌈(n : ℚ) / 16⌉₊ = (n + 15) / 16 := by
  apply le_antisymm
  · rw [Nat.ceil_le, div_le_iff₀ (by norm_num)]
    have h : n ≤ (n + 15) / 16 * 16 := by omega
    exact_mod_cast h
  · have h := Nat.le_ceil ((n : ℚ) / 16)
    rw [div_le_iff₀ (by norm_num)] at h
    have h2 : n ≤ ⌈(n : ℚ) / 16⌉₊ * 16 := by exact_mod_cast h
    omega


/-! ## C9: clamp255 -/

/-- C9: for every signed integer `v`, `clamp255 v` is 0 when `v < 0`, 255 when
`v > 255` and `v` itself otherwise; hence it lies in [0, 255], equals
`max 0 (min 255 v)`, and leaves every value already in [0, 255] unchanged. -/
theorem clamp255_spec (v : Int) :
    ((clamp255 v : Int) = if v < 0 then 0 else if 255 < v then 255 else v) ∧
    (0 ≤ (clamp255 v : Int) ∧ (clamp255 v : Int) ≤ 255) ∧
    (clamp255 v : Int) = max 0 (min 255 v) ∧
    (∀ s : Fin 256, clamp255 ((s : Nat) : Int) = (s : Nat)) := by
  have hfix : ∀ s : Fin 256, clamp255 ((s : Nat) : Int) = (s : Nat) := by
    intro s
    have hs := s.isLt
    unfold clamp255
    rw [if_neg (by omega), if_neg (by omega)]
    simp only [Int.toNat_ofNat]
    omega
  refine ⟨?_, ?_, ?_, hfix⟩
  · unfold clamp255
    split_ifs <;> omega
  · unfold clamp255
    split_ifs <;> omega
  · unfold clamp255
    split_ifs <;> omega

/-! ## C8: zero dimensions -/

/-- C8: constructing a `Raster` with `display_width = 0` or `display_height = 0`
fails: the padded dimension is then 0 and the first plane constructor's
`width > 0` / `height > 0` assertion is violated; and constructing a sample
plane with `width = 0` or `height = 0` fails. -/
theorem construct_zero_dimension_fails (d w h fill : Nat) :
    (16 * macroblock_dimension 0) % UINT_RANGE = 0 ∧
    Raster.construct 0 d = none ∧ Raster.construct d 0 = none ∧
    TwoD.construct 0 h fill = none ∧ TwoD.construct w 0 fill = none := by
  refine ⟨rfl, construct_none_of_width_zero 0 d rfl, construct_none_of_height_zero d 0 rfl, ?_, ?_⟩
  · simp [TwoD.construct]
  · simp [TwoD.construct]

/-! ## C1: padded dimensions -/

/-- C1: for every display width and height greater than 0, a raster constructed
from them reports `width() = 16 * ceil(display_width / 16)` and
`height() = 16 * ceil(display_height / 16)`, each the smallest multiple of 16
that is at least the display dimension, while `display_width()` and
`display_height()` return the constructor's arguments. The construction succeeds
whenever `display + 15` does not wrap in `unsigned int`, that is for display
dimensions up to `2^32 - 16`; above that the first plane assertion rejects the
wrapped width and no raster exists. -/
theorem raster_padded_dimensions (dw dh : Nat)
    (hw0 : 0 < dw) (hw : dw < UINT_RANGE) (hh0 : 0 < dh) (hh : dh < UINT_RANGE) :
    (∀ r : Raster, Raster.construct dw dh = some r →
      r.width = 16 * ⌈(dw : ℚ) / 16⌉₊ ∧ r.height = 16 * ⌈(dh : ℚ) / 16⌉₊ ∧
      (16 ∣ r.width ∧ dw ≤ r.width ∧ ∀ m : Nat, 16 ∣ m → dw ≤ m → r.width ≤ m) ∧
      (16 ∣ r.height ∧ dh ≤ r.height ∧ ∀ m : Nat, 16 ∣ m → dh ≤ m → r.height ≤ m) ∧
      r.display_width = dw ∧ r.display_height = dh) ∧
    (dw ≤ 4294967280 → dh ≤ 4294967280 → (Raster.construct dw dh).isSome = true) := by
  constructor
  · intro r hr
    obtain ⟨-, -, -, -, rfl⟩ := construct_some_eq_padded dw dh hw hh r hr
    refine ⟨?_, ?_, ?_, ?_, rfl, rfl⟩
    · rw [ceil_div_sixteen]; rfl
    · rw [ceil_div_sixteen]; rfl
    · refine ⟨⟨(dw + 15) / 16, rfl⟩, ?_, ?_⟩
      · show dw ≤ 16 * ((dw + 15) / 16)
        omega
      · rintro m ⟨q, rfl⟩ hm
        show 16 * ((dw + 15) / 16) ≤ 16 * q
        omega
    · refine ⟨⟨(dh + 15) / 16, rfl⟩, ?_, ?_⟩
      · show dh ≤ 16 * ((dh + 15) / 16)
        omega
      · rintro m ⟨q, rfl⟩ hm
        show 16 * ((dh + 15) / 16) ≤ 16 * q
        omega
  · intro hw2 hh2
    rw [construct_eq_padded dw dh hw0 (by norm_num [UINT_RANGE]; omega) hh0
      (by norm_num [UINT_RANGE]; omega)]
    rfl

/-- Witness of `raster_padded_dimensions` at the display size 150 x 100, which is
padded to 160 x 112. -/
theorem raster_padded_dimensions_witness :
    (Raster.construct 150 100).isSome = true ∧
    ∀ r : Raster, Raster.construct 150 100 = some r →
      r.width = 16 * ⌈((150 : Nat) : ℚ) / 16⌉₊ ∧ r.height = 16 * ⌈((100 : Nat) : ℚ) / 16⌉₊ ∧
      (16 ∣ r.width ∧ 150 ≤ r.width ∧ ∀ m : Nat, 16 ∣ m → 150 ≤ m → r.width ≤ m) ∧
      (16 ∣ r.height ∧ 100 ≤ r.height ∧ ∀ m : Nat, 16 ∣ m → 100 ≤ m → r.height ≤ m) ∧
      r.display_width = 150 ∧ r.display_height = 100 :=
  have h := raster_padded_dimensions 150 100 (by decide) (by norm_num [UINT_RANGE])
    (by decide) (by norm_num [UINT_RANGE])
  ⟨h.2 (by decide) (by decide), h.1⟩

/-- The two display sizes named by the specification: 176 x 144 stays 176 x 144
and 150 x 100 is padded to 160 x 112. -/
theorem raster_padding_examples :
    (Raster.construct 176 144).map
        (fun r => (r.width, r.height, r.display_width, r.display_height)) =
      some (176, 144, 176, 144) ∧
    (Raster.construct 150 100).map
        (fun r => (r.width, r.height, r.display_width, r.display_height)) =
      some (160, 112, 150, 100) := by
  constructor
  · rw [construct_eq_padded 176 144 (by decide) (by norm_num [UINT_RANGE]) (by decide)
      (by norm_num [UINT_RANGE])]
    rfl
  · rw [construct_eq_padded 150 100 (by decide) (by norm_num [UINT_RANGE]) (by decide)
      (by norm_num [UINT_RANGE])]
    rfl

/-! ## C2: dimension invariant -/

/-- C2: every constructed raster has `display_width() <= width()` and
`display_height() <= height()`; `width()` and `height()` are multiples of 16; the
chroma planes U and V have width `width() / 2` and height `height() / 2`, which
are multiples of 8. -/
theorem raster_dimension_invariant (dw dh : Nat) (hdw : dw < UINT_RANGE) (hdh : dh < UINT_RANGE)
    (r : Raster) (h : Raster.construct dw dh = some r) :
    r.display_width ≤ r.width ∧ r.display_height ≤ r.height ∧
    16 ∣ r.width ∧ 16 ∣ r.height ∧
    (r.Y_.width_ = r.width ∧ r.Y_.height_ = r.height) ∧
    (r.U_.width_ = r.width / 2 ∧ r.U_.height_ = r.height / 2) ∧
    (r.V_.width_ = r.width / 2 ∧ r.V_.height_ = r.height / 2) ∧
    (8 ∣ r.U_.width_ ∧ 8 ∣ r.U_.height_) ∧ (8 ∣ r.V_.width_ ∧ 8 ∣ r.V_.height_) := by
  obtain ⟨-, -, -, -, rfl⟩ := construct_some_eq_padded dw dh hdw hdh r h
  have e1 : 16 * ((dw + 15) / 16) / 2 = 8 * ((dw + 15) / 16) := by omega
  have e2 : 16 * ((dh + 15) / 16) / 2 = 8 * ((dh + 15) / 16) := by omega
  refine ⟨?_, ?_, ⟨_, rfl⟩, ⟨_, rfl⟩, ⟨rfl, rfl⟩, ⟨rfl, rfl⟩, ⟨rfl, rfl⟩,
    ⟨⟨(dw + 15) / 16, e1⟩, ⟨(dh + 15) / 16, e2⟩⟩, ⟨⟨(dw + 15) / 16, e1⟩, ⟨(dh + 15) / 16, e2⟩⟩⟩
  · show dw ≤ 16 * ((dw + 15) / 16)
    omega
  · show dh ≤ 16 * ((dh + 15) / 16)
    omega

/-- Witness of `raster_dimension_invariant` at the display size 150 x 100. -/
theorem raster_dimension_invariant_witness :
    Raster.construct 150 100 = some (Raster.padded 150 100) ∧
    (Raster.padded 150 100).display_width ≤ (Raster.padded 150 100).width ∧
    16 ∣ (Raster.padded 150 100).width ∧ 8 ∣ (Raster.padded 150 100).U_.width_ :=
  have hc : Raster.construct 150 100 = some (Raster.padded 150 100) :=
    construct_eq_padded 150 100 (by decide) (by norm_num [UINT_RANGE]) (by decide)
      (by norm_num [UINT_RANGE])
  have hinv := raster_dimension_invariant 150 100 (by norm_num [UINT_RANGE])
    (by norm_num [UINT_RANGE]) (Raster.padded 150 100) hc
  ⟨hc, hinv.1, hinv.2.2.1, hinv.2.2.2.2.2.2.2.1.1⟩

/-! ## C7: macroblock index bounds -/

/-- C7: for a raster built from display dimensions `(w, h)`, `macroblock(column, row)`
returns a macroblock (the one at that grid position) exactly when
`column < ceil(w / 16)` and `row < ceil(h / 16)`, and fails for every other
index pair. -/
theorem macroblock_index_bounds (w h : Nat) (hw : w < UINT_RANGE) (hh : h < UINT_RANGE)
    (r : Raster) (hr : Raster.construct w h = some r) (column row : Nat) :
    ((r.macroblock column row).isSome = true ↔
      (column < ⌈(w : ℚ) / 16⌉₊ ∧ row < ⌈(h : ℚ) / 16⌉₊)) ∧
    (r.macroblock column row = none ↔
      ¬ (column < ⌈(w : ℚ) / 16⌉₊ ∧ row < ⌈(h : ℚ) / 16⌉₊)) ∧
    (∀ mb : Macroblock, r.macroblock column row = some mb →
      mb.Y.context_ = ⟨column, row⟩ ∧ mb.U.context_ = ⟨column, row⟩ ∧
      mb.V.context_ = ⟨column, row⟩) := by
  obtain ⟨-, -, -, -, rfl⟩ := construct_some_eq_padded w h hw hh r hr
  have e1 : 16 * ((w + 15) / 16) / 16 = (w + 15) / 16 := by omega
  have e2 : 16 * ((h + 15) / 16) / 16 = (h + 15) / 16 := by omega
  rw [ceil_div_sixteen, ceil_div_sixteen]
  unfold Raster.macroblock Raster.padded
  simp only [e1, e2, lattice_of_get]
  by_cases hin : column < (w + 15) / 16 ∧ row < (h + 15) / 16
  · simp only [hin, and_self, if_true, Option.isSome_some, not_true_eq_false, iff_false]
    refine ⟨trivial, by simp, ?_⟩
    intro mb hmb
    cases Option.some.inj hmb
    exact ⟨rfl, rfl, rfl⟩
  · simp [hin]

/-- Witness of `macroblock_index_bounds` on the raster of display size 150 x 100,
at the last valid grid position (9, 6). -/
theorem macroblock_index_bounds_witness :
    Raster.construct 150 100 = some (Raster.padded 150 100) ∧
    ((Raster.padded 150 100).macroblock 9 6).isSome = true ∧
    (Raster.padded 150 100).macroblock 10 6 = none :=
  have hc : Raster.construct 150 100 = some (Raster.padded 150 100) :=
    construct_eq_padded 150 100 (by decide) (by norm_num [UINT_RANGE]) (by decide)
      (by norm_num [UINT_RANGE])
  have hceil : ∀ n : Nat, ⌈(n : ℚ) / 16⌉₊ = (n + 15) / 16 := ceil_div_sixteen
  ⟨hc,
    ((macroblock_index_bounds 150 100 (by norm_num [UINT_RANGE]) (by norm_num [UINT_RANGE])
      (Raster.padded 150 100) hc 9 6).1).2 (by rw [hceil, hceil]; decide),
    ((macroblock_index_bounds 150 100 (by norm_num [UINT_RANGE]) (by norm_num [UINT_RANGE])
      (Raster.padded 150 100) hc 10 6).2.1).2 (by rw [hceil, hceil]; decide)⟩


/-! ## Plane addressing lemmas -/

theorem index_lt (w h column row : Nat) (hc : column < w) (hr : row < h) :
    row * w + column < w * h := by
  calc row * w + column < row * w + w := by omega
    _ = w * (row + 1) := by ring
    _ ≤ w * h := Nat.mul_le_mul_left w hr

theorem index_inj (w c1 r1 c2 r2 : Nat) (h1 : c1 < w) (h2 : c2 < w)
    (h : r1 * w + c1 = r2 * w + c2) : c1 = c2 ∧ r1 = r2 := by
  have hw : 0 < w := by omega
  have hc : c1 = c2 := by
    have e1 : (r1 * w + c1) % w = c1 := by
      rw [Nat.add_comm, Nat.add_mul_mod_self_right, Nat.mod_eq_of_lt h1]
    have e2 : (r2 * w + c2) % w = c2 := by
      rw [Nat.add_comm, Nat.add_mul_mod_self_right, Nat.mod_eq_of_lt h2]
    rw [← e1, ← e2, h]
  refine ⟨hc, ?_⟩
  subst hc
  have : r1 * w = r2 * w := by omega
  exact Nat.eq_of_mul_eq_mul_right hw this

theorem TwoD_at_eq {α : Type} (t : TwoD α) (column row : Nat)
    (hc : column < t.width_) (hr : row < t.height_) :
    t.at column row = some (row * t.width_ + column) := by
  simp [TwoD.at, hc, hr]

theorem TwoD_store_some {α : Type} (t : TwoD α) (ref : Nat) (v : α)
    (h : ref < t.storage_.length) :
    t.store ref v = some ⟨t.width_, t.height_, t.storage_.set ref v⟩ := by
  simp [TwoD.store, h]

theorem TwoD_store_dims {α : Type} (t t2 : TwoD α) (ref : Nat) (v : α)
    (h : t.store ref v = some t2) :
    t2.width_ = t.width_ ∧ t2.height_ = t.height_ ∧
      t2.storage_.length = t.storage_.length ∧ ref < t.storage_.length := by
  unfold TwoD.store at h
  split_ifs at h with hlt
  cases Option.some.inj h
  exact ⟨rfl, rfl, by simp, hlt⟩

theorem TwoD_load_store {α : Type} (t t2 : TwoD α) (ref : Nat) (v : α)
    (h : t.store ref v = some t2) (ref2 : Nat) :
    t2.load ref2 = if ref2 = ref then some v else t.load ref2 := by
  unfold TwoD.store at h
  split_ifs at h with hlt
  cases Option.some.inj h
  unfold TwoD.load
  simp only [List.getElem?_set]
  by_cases e : ref = ref2
  · subst e
    simp [hlt]
  · have e2 : ¬ ref2 = ref := fun h => e h.symm
    simp [e, e2]

theorem SubRange_at_eq {α : Type} {sw sh : Nat} (s : TwoDSubRange sw sh) (m : TwoD α)
    (column row : Nat) (hin : s.inside m) (hc : column < sw) (hr : row < sh) :
    s.at m column row = some ((s.row_ + row) * m.width_ + (s.column_ + column)) := by
  unfold TwoDSubRange.inside at hin
  unfold TwoDSubRange.at
  rw [if_pos ⟨hc, hr⟩, TwoD_at_eq m _ _ (by omega) (by omega)]

theorem SubRange_at_congr {α : Type} {sw sh : Nat} (s : TwoDSubRange sw sh) (m m2 : TwoD α)
    (hw : m2.width_ = m.width_) (hh : m2.height_ = m.height_) (column row : Nat) :
    s.at m2 column row = s.at m column row := by
  unfold TwoDSubRange.at TwoD.at
  rw [hw, hh]

theorem SubRange_at_lt {α : Type} {sw sh : Nat} (s : TwoDSubRange sw sh) (m : TwoD α)
    (column row ref : Nat) (hfull : m.full)
    (h : s.at m column row = some ref) : ref < m.storage_.length := by
  unfold TwoDSubRange.at at h
  split_ifs at h with hb
  unfold TwoD.at at h
  split_ifs at h with hb2
  cases Option.some.inj h
  rw [hfull]
  exact index_lt _ _ _ _ hb2.1 hb2.2

theorem SubRange_at_inj {α : Type} {sw sh : Nat} (s : TwoDSubRange sw sh) (m : TwoD α)
    (c1 r1 c2 r2 ref : Nat) (h1 : s.at m c1 r1 = some ref) (h2 : s.at m c2 r2 = some ref) :
    c1 = c2 ∧ r1 = r2 := by
  unfold TwoDSubRange.at at h1 h2
  split_ifs at h1 with hb1
  split_ifs at h2 with hb2
  unfold TwoD.at at h1 h2
  split_ifs at h1 with hm1
  split_ifs at h2 with hm2
  have e1 := Option.some.inj h1
  have e2 := Option.some.inj h2
  have := index_inj m.width_ _ _ _ _ hm1.1 hm2.1 (e1.trans e2.symm)
  omega


/-! ## The fill loop -/

theorem forall_ij_loop {sw sh : Nat} (s : TwoDSubRange sw sh) (f : Nat → Nat → Option Nat)
    (g : Nat → Nat → Nat) (L : List Context) (m : TwoD Nat)
    (hL : ∀ c ∈ L, c.column < sw ∧ c.row < sh)
    (hf : ∀ c ∈ L, f c.column c.row = some (g c.column c.row))
    (hin : s.inside m) (hfull : m.full) :
    ∃ m2 : TwoD Nat,
      L.foldlM (fun m c => (s.at m c.column c.row).bind fun ref =>
        (f c.column c.row).bind fun v => m.store ref v) m = some m2 ∧
      m2.width_ = m.width_ ∧ m2.height_ = m.height_ ∧ m2.full ∧
      (∀ c ∈ L, ∀ ref, s.at m c.column c.row = some ref →
        m2.load ref = some (g c.column c.row)) ∧
      (∀ ref, (∀ c ∈ L, s.at m c.column c.row ≠ some ref) → m2.load ref = m.load ref) := by
  induction L generalizing m with
  | nil =>
    exact ⟨m, rfl, rfl, rfl, hfull, fun c hc => absurd hc (List.not_mem_nil c), fun _ _ => rfl⟩
  | cons x T ih =>
    have hx := hL x (List.mem_cons_self x T)
    have hatx := SubRange_at_eq s m x.column x.row hin hx.1 hx.2
    have hlt := SubRange_at_lt s m x.column x.row _ hfull hatx
    have hst := TwoD_store_some m _ (g x.column x.row) hlt
    obtain ⟨hw1, hh1, hlen1, -⟩ := TwoD_store_dims m _ _ _ hst
    have hin1 : s.inside (⟨m.width_, m.height_,
        m.storage_.set ((s.row_ + x.row) * m.width_ + (s.column_ + x.column))
          (g x.column x.row)⟩ : TwoD Nat) := hin
    have hfull1 : (⟨m.width_, m.height_,
        m.storage_.set ((s.row_ + x.row) * m.width_ + (s.column_ + x.column))
          (g x.column x.row)⟩ : TwoD Nat).full := by
      unfold TwoD.full at *
      simpa using hfull
    obtain ⟨m2, hm2, hw2, hh2, hfull2, ha, hb⟩ :=
      ih _ (fun c hc => hL c (List.mem_cons_of_mem x hc))
        (fun c hc => hf c (List.mem_cons_of_mem x hc)) hin1 hfull1
    have hcongr : ∀ column row, s.at (⟨m.width_, m.height_,
        m.storage_.set ((s.row_ + x.row) * m.width_ + (s.column_ + x.column))
          (g x.column x.row)⟩ : TwoD Nat) column row = s.at m column row :=
      fun column row => SubRange_at_congr s m _ rfl rfl column row
    refine ⟨m2, ?_, hw2, hh2, hfull2, ?_, ?_⟩
    · rw [List.foldlM_cons, hatx, hf x (List.mem_cons_self x T)]
      simp only [Option.some_bind, Option.bind_eq_bind, hst]
      exact hm2
    · intro c hc ref href
      rcases List.mem_cons.mp hc with rfl | hcT
      · by_cases hdup : ∃ c2 ∈ T, s.at m c2.column c2.row = some ref
        · obtain ⟨c2, hc2, href2⟩ := hdup
          obtain ⟨e1, e2⟩ := SubRange_at_inj s m _ _ _ _ ref href2 href
          have := ha c2 hc2 ref (by rw [hcongr]; exact href2)
          rw [this, e1, e2]
        · have hnot : ∀ c2 ∈ T, s.at (⟨m.width_, m.height_,
              m.storage_.set ((s.row_ + c.row) * m.width_ + (s.column_ + c.column))
                (g c.column c.row)⟩ : TwoD Nat) c2.column c2.row ≠ some ref := by
            intro c2 hc2 hEq
            rw [hcongr] at hEq
            exact hdup ⟨c2, hc2, hEq⟩
          rw [hb ref hnot, TwoD_load_store m _ _ _ hst ref]
          rw [hatx] at href
          rw [if_pos (Option.some.inj href).symm]
      · exact ha c hcT ref (by rw [hcongr]; exact href)
    · intro ref hnot
      have hnotT : ∀ c2 ∈ T, s.at (⟨m.width_, m.height_,
          m.storage_.set ((s.row_ + x.row) * m.width_ + (s.column_ + x.column))
            (g x.column x.row)⟩ : TwoD Nat) c2.column c2.row ≠ some ref := by
        intro c2 hc2 hEq
        rw [hcongr] at hEq
        exact hnot c2 (List.mem_cons_of_mem x hc2) hEq
      rw [hb ref hnotT, TwoD_load_store m _ _ _ hst ref]
      have hne : ref ≠ (s.row_ + x.row) * m.width_ + (s.column_ + x.column) := by
        intro e
        exact hnot x (List.mem_cons_self x T) (by rw [hatx, e])
      rw [if_neg hne]

/-- The fill loop over a window inside a full plane succeeds; afterwards every
position of the window holds the value computed for it, the samples outside the
window are unchanged, and the plane keeps its dimensions. -/
theorem forall_ij_spec {sw sh : Nat} (s : TwoDSubRange sw sh) (f : Nat → Nat → Option Nat)
    (g : Nat → Nat → Nat) (m : TwoD Nat)
    (hf : ∀ column row, column < sw → row < sh → f column row = some (g column row))
    (hin : s.inside m) (hfull : m.full) :
    ∃ m2 : TwoD Nat, s.forall_ij m f = some m2 ∧
      m2.width_ = m.width_ ∧ m2.height_ = m.height_ ∧ m2.full ∧
      (∀ column row, column < sw → row < sh →
        s.get m2 column row = some (g column row)) ∧
      (∀ ref, (∀ column row, s.at m column row ≠ some ref) → m2.load ref = m.load ref) := by
  obtain ⟨m2, hm2, hw2, hh2, hfull2, ha, hb⟩ :=
    forall_ij_loop s f g (lattice_contexts sw sh) m
      (fun c hc => lattice_contexts_mem sw sh c hc)
      (fun c hc => hf c.column c.row (lattice_contexts_mem sw sh c hc).1
        (lattice_contexts_mem sw sh c hc).2) hin hfull
  refine ⟨m2, hm2, hw2, hh2, hfull2, ?_, ?_⟩
  · intro column row hc hr
    have hat := SubRange_at_eq s m column row hin hc hr
    unfold TwoDSubRange.get
    rw [SubRange_at_congr s m m2 hw2 hh2, hat, Option.some_bind]
    exact ha ⟨column, row⟩ (mem_lattice_contexts sw sh ⟨column, row⟩ hc hr) _ hat
  · intro ref hnot
    exact hb ref fun c _ => hnot c.column c.row


/-! ## C3: sub-block and big-block views alias the same samples -/

theorem Block_at_eq {size : Nat} (b : Block size) (p : TwoD Nat) (column row : Nat)
    (hin : b.contents_.inside p) (hc : column < size) (hr : row < size) :
    b.at p column row =
      some ((b.contents_.row_ + row) * p.width_ + (b.contents_.column_ + column)) :=
  SubRange_at_eq b.contents_ p column row hin hc hr

theorem list_getElem_mem (l : List Nat) (i : Nat) (h : i < l.length) :
    ∃ a, l[i]? = some a ∧ a ∈ l :=
  ⟨l[i], List.getElem?_eq_getElem h, List.getElem_mem h⟩

theorem Predictors_above_eq {size : Nat} (pr : Predictors size) (column : Nat)
    (hc : column < size) : pr.above (column : Int) = pr.above_row[column]? := by
  unfold Predictors.above
  rw [if_neg (by omega), if_pos ⟨by omega, by omega⟩, Int.toNat_ofNat]

theorem Predictors_left_eq {size : Nat} (pr : Predictors size) (row : Nat)
    (hr : row < size) : pr.left (row : Int) = pr.left_column[row]? := by
  unfold Predictors.left
  rw [if_neg (by omega), if_pos ⟨by omega, by omega⟩, Int.toNat_ofNat]

theorem Predictors_corner_eq {size : Nat} (pr : Predictors size) :
    pr.above (-1) = some pr.above_left := by
  unfold Predictors.above
  rw [if_pos rfl]

theorem clamp255_le (v : Int) : clamp255 v ≤ 255 := by
  unfold clamp255
  split_ifs <;> omega

theorem clamp255_of_sample (k : Nat) (hk : k ≤ 255) : clamp255 (k : Int) = k := by
  unfold clamp255
  rw [if_neg (by omega), if_neg (by omega), Int.toNat_ofNat]
  omega

theorem Block_read_eq_get {size : Nat} (b : Block size) (p : TwoD Nat) (column row : Nat) :
    b.read p column row = b.contents_.get p column row := rfl

/-- C4: TrueMotion prediction `sample(c, r) = clamp255(left(r) + above(c) - corner)`
yields a value in [0, 255] for every choice of `left(r)`, `above(c)` and corner
in [0, 255]; when `above(c) = left(r) = corner` the output sample equals the
corner; and on a block inside a full plane `intra_predict(TM)` stores exactly
this value at `(c, r)`. -/
theorem true_motion_in_range (size : Nat) (pr : Predictors size) (hv : pr.valid)
    (column row : Nat) (hc : column < size) (hr : row < size) :
    ∃ a l : Nat, pr.above column = some a ∧ pr.left row = some l ∧
      pr.above (-1) = some pr.above_left ∧ a ≤ 255 ∧ l ≤ 255 ∧
      true_motion_sample pr column row =
        some (clamp255 ((l : Int) + (a : Int) - (pr.above_left : Int))) ∧
      (0 ≤ (clamp255 ((l : Int) + (a : Int) - (pr.above_left : Int)) : Int) ∧
        clamp255 ((l : Int) + (a : Int) - (pr.above_left : Int)) ≤ 255) ∧
      (a = pr.above_left → l = pr.above_left →
        clamp255 ((l : Int) + (a : Int) - (pr.above_left : Int)) = pr.above_left) ∧
      (∀ (b : Block size) (p : TwoD Nat), b.contents_.inside p → p.full →
        ∃ p2 : TwoD Nat, b.intra_predict PredictionMode.TM_PRED pr p = some p2 ∧
          b.read p2 column row =
            some (clamp255 ((l : Int) + (a : Int) - (pr.above_left : Int)))) := by
  obtain ⟨hla, hll, hba, hbl, hbk⟩ := hv
  obtain ⟨a, ha, hamem⟩ := list_getElem_mem pr.above_row column (by omega)
  obtain ⟨l, hl, hlmem⟩ := list_getElem_mem pr.left_column row (by omega)
  have habove : pr.above column = some a := by rw [Predictors_above_eq pr column hc, ha]
  have hleft : pr.left row = some l := by rw [Predictors_left_eq pr row hr, hl]
  have hsample : true_motion_sample pr column row =
      some (clamp255 ((l : Int) + (a : Int) - (pr.above_left : Int))) := by
    unfold true_motion_sample
    rw [hleft, habove, Predictors_corner_eq]
    rfl
  refine ⟨a, l, habove, hleft, Predictors_corner_eq pr, hba a hamem, hbl l hlmem, hsample,
    ⟨Int.natCast_nonneg _, clamp255_le _⟩, ?_, ?_⟩
  · intro e1 e2
    rw [e1, e2]
    have : ((pr.above_left : Int) + (pr.above_left : Int) - (pr.above_left : Int)) =
        (pr.above_left : Int) := by ring
    rw [this]
    exact clamp255_of_sample _ hbk
  · intro b p hin hfull
    have hf : ∀ c r, c < size → r < size → true_motion_sample pr c r =
        some ((true_motion_sample pr c r).getD 0) := by
      intro c r hc2 hr2
      obtain ⟨a2, ha2, -⟩ := list_getElem_mem pr.above_row c (by omega)
      obtain ⟨l2, hl2, -⟩ := list_getElem_mem pr.left_column r (by omega)
      unfold true_motion_sample
      rw [Predictors_left_eq pr r hr2, hl2, Predictors_above_eq pr c hc2, ha2,
        Predictors_corner_eq]
      rfl
    obtain ⟨p2, hp2, -, -, -, hget, -⟩ :=
      forall_ij_spec b.contents_ (true_motion_sample pr)
        (fun c r => (true_motion_sample pr c r).getD 0) p hf hin hfull
    refine ⟨p2, hp2, ?_⟩
    rw [Block_read_eq_get, hget column row hc hr, hsample]
    rfl

/-- Witness of `true_motion_in_range`: a 4 x 4 block whose predictors all equal
the corner value 77. -/
theorem true_motion_in_range_witness :
    (⟨[77, 77, 77, 77], [77, 77, 77, 77], 77, []⟩ : Predictors 4).valid ∧
    true_motion_sample (⟨[77, 77, 77, 77], [77, 77, 77, 77], 77, []⟩ : Predictors 4) 2 3 =
      some 77 := by
  have hv : (⟨[77, 77, 77, 77], [77, 77, 77, 77], 77, []⟩ : Predictors 4).valid := by
    unfold Predictors.valid
    simp
  obtain ⟨a, l, ha, hl, -, -, -, hs, -, hk, -⟩ :=
    true_motion_in_range 4 ⟨[77, 77, 77, 77], [77, 77, 77, 77], 77, []⟩ hv 2 3
      (by decide) (by decide)
  have ea : a = 77 := by
    have h2 : (⟨[77, 77, 77, 77], [77, 77, 77, 77], 77, []⟩ : Predictors 4).above
        ((2 : Nat) : Int) = some 77 := by rfl
    exact Option.some.inj (ha.symm.trans h2)
  have el : l = 77 := by
    have h2 : (⟨[77, 77, 77, 77], [77, 77, 77, 77], 77, []⟩ : Predictors 4).left
        ((3 : Nat) : Int) = some 77 := by rfl
    exact Option.some.inj (hl.symm.trans h2)
  refine ⟨hv, ?_⟩
  rw [hs, hk ea el]

/-! ## C10: DC prediction without neighbours -/

/-- C10: for every block size (in particular 4, 8 and 16), `intra_predict(DC)` on
a block that has neither an above nor a left neighbour succeeds and sets every
one of the block's samples to 128, whatever the plane held before and whatever
the predictors are. -/
theorem dc_predict_no_neighbours (size : Nat) (b : Block size) (pr : Predictors size)
    (p : TwoD Nat) (habove : b.context_.has_above = false) (hleft : b.context_.has_left = false)
    (hin : b.contents_.inside p) (hfull : p.full) :
    ∃ p2 : TwoD Nat, b.intra_predict PredictionMode.DC_PRED pr p = some p2 ∧
      p2.width_ = p.width_ ∧ p2.height_ = p.height_ ∧
      ∀ column row : Nat, column < size → row < size → b.read p2 column row = some 128 := by
  obtain ⟨p2, hp2, hw, hh, -, hget, -⟩ :=
    forall_ij_spec b.contents_ (fun _ _ => some (128 % 256)) (fun _ _ => 128) p
      (fun _ _ _ _ => rfl) hin hfull
  refine ⟨p2, ?_, hw, hh, fun column row hc hr => hget column row hc hr⟩
  show b.dc_predict pr p = some p2
  unfold Block.dc_predict
  rw [habove, hleft]
  exact hp2

/-- Witness of `dc_predict_no_neighbours`: the first 4 x 4 block of a 4 x 4 plane
holding arbitrary samples. -/
theorem dc_predict_no_neighbours_witness :
    ∃ p2 : TwoD Nat,
      (⟨⟨0, 0⟩, ⟨0, 0⟩⟩ : Block 4).intra_predict PredictionMode.DC_PRED
        ⟨[127, 127, 127, 127], [129, 129, 129, 129], 129, []⟩
        ⟨4, 4, [1, 2, 3, 4, 5, 6, 7, 8, 9, 10, 11, 12, 13, 14, 15, 16]⟩ = some p2 ∧
      (⟨⟨0, 0⟩, ⟨0, 0⟩⟩ : Block 4).read p2 3 3 = some 128 := by
  obtain ⟨p2, h1, -, -, h2⟩ :=
    dc_predict_no_neighbours 4 ⟨⟨0, 0⟩, ⟨0, 0⟩⟩
      ⟨[127, 127, 127, 127], [129, 129, 129, 129], 129, []⟩
      ⟨4, 4, [1, 2, 3, 4, 5, 6, 7, 8, 9, 10, 11, 12, 13, 14, 15, 16]⟩ rfl rfl
      (by decide) (by decide)
  exact ⟨p2, h1, h2 3 3 (by decide) (by decide)⟩


/-! ## C5: safe and unsafe inter prediction agree in bounds -/

theorem foldlM_congr_mem {σ β : Type} (L : List β) (f g : σ → β → Option σ)
    (h : ∀ x ∈ L, ∀ s, f s x = g s x) (s : σ) : L.foldlM f s = L.foldlM g s := by
  induction L generalizing s with
  | nil => rfl
  | cons x T ih =>
    rw [List.foldlM_cons, List.foldlM_cons, h x (List.mem_cons_self x T) s]
    congr 1
    funext s2
    exact ih (fun y hy => h y (List.mem_cons_of_mem x hy)) s2

theorem forall_ij_congr {sw sh : Nat} (s : TwoDSubRange sw sh) (m : TwoD Nat)
    (f g : Nat → Nat → Option Nat)
    (h : ∀ column row, column < sw → row < sh → f column row = g column row) :
    s.forall_ij m f = s.forall_ij m g := by
  unfold TwoDSubRange.forall_ij
  apply foldlM_congr_mem
  intro c hc m2
  rw [h c.column c.row (lattice_contexts_mem sw sh c hc).1 (lattice_contexts_mem sw sh c hc).2]

theorem clamp_coordinate_eq (v : Int) (extent : Nat) (h0 : 0 ≤ v) (h1 : v < extent) :
    clamp_coordinate v extent = v.toNat := by
  unfold clamp_coordinate
  rw [if_neg (by omega), if_neg (by omega)]

theorem at_clamped_eq_at_signed (reference : TwoD Nat) (column row : Int)
    (hc0 : 0 ≤ column) (hc1 : column < reference.width_)
    (hr0 : 0 ≤ row) (hr1 : row < reference.height_) :
    reference.at_clamped column row = reference.at_signed column row := by
  unfold TwoD.at_clamped TwoD.at_signed
  rw [clamp_coordinate_eq column _ hc0 hc1, clamp_coordinate_eq row _ hr0 hr1,
    if_pos ⟨hc0, hr0⟩]

theorem at_signed_isSome (reference : TwoD Nat) (column row : Int) (hfull : reference.full)
    (hc0 : 0 ≤ column) (hc1 : column < reference.width_)
    (hr0 : 0 ≤ row) (hr1 : row < reference.height_) :
    ∃ v, reference.at_signed column row = some v := by
  unfold TwoD.at_signed TwoD.get
  rw [if_pos ⟨hc0, hr0⟩, TwoD_at_eq reference _ _ (by omega) (by omega), Option.some_bind]
  unfold TwoD.load
  have hlt : row.toNat * reference.width_ + column.toNat < reference.storage_.length := by
    rw [hfull]
    exact index_lt _ _ _ _ (by omega) (by omega)
  exact ⟨_, List.getElem?_eq_getElem hlt⟩

theorem inter_sample_congr (read1 read2 : Int → Int → Option Nat) (filter : InterpolationFilter)
    (mv : MotionVector) (sc sr : Int) (column row : Nat)
    (h : ∀ t ∈ filter.taps mv,
      read1 (sc + column + t.1) (sr + row + t.2) = read2 (sc + column + t.1) (sr + row + t.2)) :
    inter_sample read1 filter mv sc sr column row =
      inter_sample read2 filter mv sc sr column row := by
  unfold inter_sample
  rw [List.map_congr_left h]

theorem inter_sample_isSome (reference : TwoD Nat) (filter : InterpolationFilter)
    (mv : MotionVector) (sc sr : Int) (column row : Nat) (hfull : reference.full)
    (h : ∀ t ∈ filter.taps mv,
      (0 ≤ sc + column + t.1 ∧ sc + column + t.1 < reference.width_) ∧
      (0 ≤ sr + row + t.2 ∧ sr + row + t.2 < reference.height_)) :
    ∃ v, inter_sample reference.at_signed filter mv sc sr column row = some v := by
  unfold inter_sample
  have hall := allSome_map_some (filter.taps mv)
    (fun t => reference.at_signed (sc + column + t.1) (sr + row + t.2))
    (fun t => (reference.at_signed (sc + column + t.1) (sr + row + t.2)).getD 0)
    (by
      intro t ht
      obtain ⟨⟨a0, a1⟩, b0, b1⟩ := h t ht
      obtain ⟨v, hv⟩ := at_signed_isSome reference _ _ hfull a0 a1 b0 b1
      simp only [hv, Option.getD_some])
  rw [hall]
  exact ⟨_, rfl⟩

/-- C5: `safe_inter_predict` and `unsafe_inter_predict` write the same block,
sample for sample, for every motion vector, interpolation filter, reference
plane and source position whose whole sampled footprint (all taps of all
output samples) lies inside the reference plane: clamping is the identity on
in-bounds coordinates. Both succeed when the reference and the target plane
hold their samples and the block lies inside the target plane. -/
theorem safe_matches_unsafe_in_bounds (size : Nat) (b : Block size)
    (filter : InterpolationFilter) (mv : MotionVector) (reference : TwoD Nat)
    (sc sr : Int) (p : TwoD Nat)
    (hfoot : footprint_in_bounds size filter mv reference sc sr) :
    b.safe_inter_predict filter mv reference sc sr p =
      b.unsafe_inter_predict filter mv reference sc sr p ∧
    (∀ column row : Nat, column < size → row < size →
      inter_sample reference.at_clamped filter mv sc sr column row =
        inter_sample reference.at_signed filter mv sc sr column row) ∧
    (reference.full → b.contents_.inside p → p.full →
      ∃ p2 : TwoD Nat, b.unsafe_inter_predict filter mv reference sc sr p = some p2 ∧
        b.safe_inter_predict filter mv reference sc sr p = some p2 ∧
        ∀ column row : Nat, column < size → row < size →
          (b.read p2 column row).isSome = true ∧
          b.read p2 column row =
            inter_sample reference.at_signed filter mv sc sr column row) := by
  have hpoint : ∀ column row : Nat, column < size → row < size →
      inter_sample reference.at_clamped filter mv sc sr column row =
        inter_sample reference.at_signed filter mv sc sr column row := by
    intro column row hc hr
    apply inter_sample_congr
    intro t ht
    obtain ⟨⟨a0, a1⟩, b0, b1⟩ := hfoot column row hc hr t ht
    exact at_clamped_eq_at_signed reference _ _ a0 a1 b0 b1
  have heq : b.safe_inter_predict filter mv reference sc sr p =
      b.unsafe_inter_predict filter mv reference sc sr p :=
    forall_ij_congr b.contents_ p _ _ hpoint
  refine ⟨heq, hpoint, ?_⟩
  intro hrfull hin hfull
  have hf : ∀ column row, column < size → row < size →
      inter_sample reference.at_signed filter mv sc sr column row =
        some ((inter_sample reference.at_signed filter mv sc sr column row).getD 0) := by
    intro column row hc hr
    obtain ⟨v, hv⟩ := inter_sample_isSome reference filter mv sc sr column row hrfull
      (hfoot column row hc hr)
    rw [hv]
    rfl
  obtain ⟨p2, hp2, -, -, -, hget, -⟩ :=
    forall_ij_spec b.contents_ (inter_sample reference.at_signed filter mv sc sr)
      (fun column row => (inter_sample reference.at_signed filter mv sc sr column row).getD 0)
      p hf hin hfull
  refine ⟨p2, hp2, heq.trans hp2, ?_⟩
  intro column row hc hr
  rw [Block_read_eq_get, hget column row hc hr]
  exact ⟨rfl, (hf column row hc hr).symm⟩

/-- Witness of `safe_matches_unsafe_in_bounds`: a 2 x 2 block predicted from the
interior of a 4 x 4 reference with a four-tap averaging filter (a sub-pixel
position). -/
theorem safe_matches_unsafe_in_bounds_witness :
    footprint_in_bounds 2 ⟨fun _ => [(0, 0), (1, 0), (0, 1), (1, 1)], fun _ xs => (xs.sum + 2) / 4⟩
      ⟨4, 4⟩ ⟨4, 4, [1, 2, 3, 4, 5, 6, 7, 8, 9, 10, 11, 12, 13, 14, 15, 16]⟩ 1 1 ∧
    (⟨⟨0, 0⟩, ⟨0, 0⟩⟩ : Block 2).safe_inter_predict
        ⟨fun _ => [(0, 0), (1, 0), (0, 1), (1, 1)], fun _ xs => (xs.sum + 2) / 4⟩ ⟨4, 4⟩
        ⟨4, 4, [1, 2, 3, 4, 5, 6, 7, 8, 9, 10, 11, 12, 13, 14, 15, 16]⟩ 1 1
        ⟨2, 2, [0, 0, 0, 0]⟩ =
      (⟨⟨0, 0⟩, ⟨0, 0⟩⟩ : Block 2).unsafe_inter_predict
        ⟨fun _ => [(0, 0), (1, 0), (0, 1), (1, 1)], fun _ xs => (xs.sum + 2) / 4⟩ ⟨4, 4⟩
        ⟨4, 4, [1, 2, 3, 4, 5, 6, 7, 8, 9, 10, 11, 12, 13, 14, 15, 16]⟩ 1 1
        ⟨2, 2, [0, 0, 0, 0]⟩ := by
  have hfoot : footprint_in_bounds 2
      ⟨fun _ => [(0, 0), (1, 0), (0, 1), (1, 1)], fun _ xs => (xs.sum + 2) / 4⟩
      ⟨4, 4⟩ ⟨4, 4, [1, 2, 3, 4, 5, 6, 7, 8, 9, 10, 11, 12, 13, 14, 15, 16]⟩ 1 1 := by
    intro column row hc hr t ht
    simp only [List.mem_cons, List.mem_singleton, List.not_mem_nil, or_false] at ht
    rcases ht with rfl | rfl | rfl | rfl <;> simp only <;> omega
  exact ⟨hfoot, (safe_matches_unsafe_in_bounds 2 _ _ _ _ 1 1 _ hfoot).1⟩


/-! ## C6: macroblock assignment is a deep copy -/

theorem plane_set_plane (r : Raster) (comp comp2 : Component) (p : TwoD Nat) :
    (r.set_plane comp p).plane comp2 = if comp2 = comp then p else r.plane comp2 := by
  cases comp <;> cases comp2 <;> rfl

theorem SampleRef_eq_iff (l l2 : SampleRef) :
    l2 = l ↔ l2.raster = l.raster ∧ l2.component = l.component ∧ l2.ref = l.ref := by
  constructor
  · rintro rfl
    exact ⟨rfl, rfl, rfl⟩
  · rintro ⟨h1, h2, h3⟩
    cases l
    cases l2
    simp only at h1 h2 h3
    subst h1 h2 h3
    rfl

/-- A store changes the stored sample and nothing else: every other sample and
all plane dimensions stay as they were. -/
theorem Frames_store_spec (fs fs2 : List Raster) (l : SampleRef) (v : Nat)
    (h : Frames.store fs l v = some fs2) :
    (∀ l2 : SampleRef, Frames.load fs2 l2 = if l2 = l then some v else Frames.load fs l2) ∧
    (∀ (i : Nat) (comp : Component),
      Frames.shape fs2 i comp = Frames.shape fs i comp) := by
  unfold Frames.store at h
  cases hr : fs[l.raster]? with
  | none => rw [hr] at h; cases h
  | some r =>
    rw [hr, Option.some_bind] at h
    cases hp : (r.plane l.component).store l.ref v with
    | none => rw [hp] at h; cases h
    | some p2 =>
      rw [hp] at h
      cases Option.some.inj h
      have hlen : l.raster < fs.length := by
        by_contra hge
        rw [List.getElem?_eq_none (by omega)] at hr
        cases hr
      obtain ⟨hw, hh, hlen2, -⟩ := TwoD_store_dims _ _ _ _ hp
      constructor
      · intro l2
        unfold Frames.load
        rw [List.getElem?_set]
        by_cases e1 : l.raster = l2.raster
        · rw [if_pos e1, if_pos hlen, Option.some_bind, plane_set_plane, ← e1, hr,
            Option.some_bind]
          by_cases e2 : l2.component = l.component
          · rw [if_pos e2, TwoD_load_store _ _ _ _ hp, e2]
            by_cases e3 : l2.ref = l.ref
            · rw [if_pos e3, if_pos ((SampleRef_eq_iff l l2).2 ⟨e1.symm, e2, e3⟩)]
            · rw [if_neg e3, if_neg (fun e => e3 ((SampleRef_eq_iff l l2).1 e).2.2)]
          · rw [if_neg e2, if_neg (fun e => e2 ((SampleRef_eq_iff l l2).1 e).2.1)]
        · rw [if_neg e1, if_neg (fun e => e1 ((SampleRef_eq_iff l l2).1 e).1.symm)]
      · intro i comp
        unfold Frames.shape
        rw [List.getElem?_set]
        by_cases e1 : l.raster = i
        · rw [if_pos e1, if_pos hlen, ← e1, hr]
          simp only [Option.map_some', plane_set_plane]
          by_cases e2 : comp = l.component
          · rw [if_pos e2, hw, hh, hlen2, e2]
          · rw [if_neg e2]
        · rw [if_neg e1]

theorem Frames_store_isSome (fs : List Raster) (l : SampleRef) (v : Nat)
    (h : (Frames.load fs l).isSome = true) : ∃ fs2, Frames.store fs l v = some fs2 := by
  unfold Frames.load at h
  unfold Frames.store
  cases hr : fs[l.raster]? with
  | none => rw [hr] at h; cases h
  | some r =>
    rw [hr, Option.some_bind] at h
    rw [Option.some_bind]
    unfold TwoD.load at h
    have hlt : l.ref < (r.plane l.component).storage_.length := by
      by_contra hge
      rw [List.getElem?_eq_none (by omega)] at h
      cases h
    rw [TwoD_store_some _ _ _ hlt]
    exact ⟨_, rfl⟩

/-- Sequential copy: when every reference is valid, no destination is also a
source, and equal destinations have equal sources, the copy succeeds, every
destination ends up holding the value its source held before, every other sample
is unchanged, and the plane dimensions are unchanged. -/
theorem Frames_copy_spec (L : List (SampleRef × SampleRef)) (fs : List Raster)
    (hvalid : ∀ x ∈ L, (Frames.load fs x.1).isSome = true ∧ (Frames.load fs x.2).isSome = true)
    (hdisj : ∀ x ∈ L, ∀ y ∈ L, x.1 ≠ y.2)
    (hfun : ∀ x ∈ L, ∀ y ∈ L, x.1 = y.1 → x.2 = y.2) :
    ∃ fs2 : List Raster, Frames.copy L fs = some fs2 ∧
      (∀ x ∈ L, Frames.load fs2 x.1 = Frames.load fs x.2) ∧
      (∀ l : SampleRef, (∀ x ∈ L, x.1 ≠ l) → Frames.load fs2 l = Frames.load fs l) ∧
      (∀ (i : Nat) (comp : Component),
        Frames.shape fs2 i comp = Frames.shape fs i comp) := by
  induction L generalizing fs with
  | nil => exact ⟨fs, rfl, fun x hx => absurd hx (List.not_mem_nil x), fun _ _ => rfl,
      fun _ _ => rfl⟩
  | cons x T ih =>
    have hx := hvalid x (List.mem_cons_self x T)
    obtain ⟨v, hv⟩ := Option.isSome_iff_exists.mp hx.2
    obtain ⟨fs1, hfs1⟩ := Frames_store_isSome fs x.1 v hx.1
    obtain ⟨hload1, hdims1⟩ := Frames_store_spec fs fs1 x.1 v hfs1
    have hsrc1 : ∀ y ∈ x :: T, Frames.load fs1 y.2 = Frames.load fs y.2 := by
      intro y hy
      rw [hload1, if_neg (fun e => hdisj x (List.mem_cons_self x T) y hy e.symm)]
    have hvalid1 : ∀ y ∈ T, (Frames.load fs1 y.1).isSome = true ∧
        (Frames.load fs1 y.2).isSome = true := by
      intro y hy
      have hyL := List.mem_cons_of_mem x hy
      refine ⟨?_, by rw [hsrc1 y hyL]; exact (hvalid y hyL).2⟩
      rw [hload1]
      by_cases e : y.1 = x.1
      · rw [if_pos e]; rfl
      · rw [if_neg e]; exact (hvalid y hyL).1
    obtain ⟨fs2, hfs2, hcopied, hother, hdims2⟩ := ih fs1 hvalid1
      (fun y hy z hz => hdisj y (List.mem_cons_of_mem x hy) z (List.mem_cons_of_mem x hz))
      (fun y hy z hz => hfun y (List.mem_cons_of_mem x hy) z (List.mem_cons_of_mem x hz))
    refine ⟨fs2, ?_, ?_, ?_, ?_⟩
    · show (Frames.load fs x.2).bind _ = some fs2
      rw [hv, Option.some_bind, hfs1, Option.some_bind]
      exact hfs2
    · intro y hy
      rcases List.mem_cons.mp hy with rfl | hyT
      · by_cases hdup : ∃ z ∈ T, z.1 = y.1
        · obtain ⟨z, hz, hzy⟩ := hdup
          have hz2 : z.2 = y.2 :=
            hfun z (List.mem_cons_of_mem y hz) y (List.mem_cons_self y T) hzy
          rw [← hzy, hcopied z hz, hz2, hsrc1 y hy]
        · rw [hother y.1 (fun z hz e => hdup ⟨z, hz, e⟩), hload1, if_pos rfl, hv]
      · rw [hcopied y hyT, hsrc1 y hy]
    · intro l hl
      rw [hother l (fun z hz => hl z (List.mem_cons_of_mem x hz)), hload1,
        if_neg (fun e => hl x (List.mem_cons_self x T) e.symm)]
    · intro i comp
      rw [hdims2 i comp, hdims1 i comp]


theorem sample_ref_eq {size : Nat} (b : Block size) (fs : List Raster) (i : Nat)
    (comp : Component) (r : Raster) (hi : fs[i]? = some r)
    (hin : b.contents_.inside (r.plane comp)) (column row : Nat)
    (hc : column < size) (hr : row < size) :
    b.sample_ref fs i comp column row =
      some ⟨i, comp, (b.contents_.row_ + row) * (r.plane comp).width_ +
        (b.contents_.column_ + column)⟩ := by
  unfold Block.sample_ref
  rw [hi, Option.some_bind, Block_at_eq b _ column row hin hc hr]
  rfl

theorem sample_ref_congr {size : Nat} (b : Block size) (fs fs2 : List Raster) (i : Nat)
    (comp : Component)
    (hdims : Frames.shape fs2 i comp = Frames.shape fs i comp)
    (column row : Nat) :
    b.sample_ref fs2 i comp column row = b.sample_ref fs i comp column row := by
  unfold Block.sample_ref
  unfold Frames.shape at hdims
  cases h1 : fs[i]? with
  | none =>
    cases h2 : fs2[i]? with
    | none => rfl
    | some r2 => rw [h1, h2] at hdims; cases hdims
  | some r =>
    cases h2 : fs2[i]? with
    | none => rw [h1, h2] at hdims; cases hdims
    | some r2 =>
      rw [h1, h2] at hdims
      simp only [Option.map_some', Option.some.injEq, Prod.mk.injEq] at hdims
      simp only [Option.some_bind]
      unfold Block.at
      rw [SubRange_at_congr b.contents_ (r.plane comp) (r2.plane comp) hdims.1 hdims.2.1]

theorem sample_refs_congr {size : Nat} (b : Block size) (fs fs2 : List Raster) (i : Nat)
    (comp : Component)
    (hdims : Frames.shape fs2 i comp = Frames.shape fs i comp) :
    b.sample_refs fs2 i comp = b.sample_refs fs i comp := by
  unfold Block.sample_refs
  congr 2
  funext c
  exact sample_ref_congr b fs fs2 i comp hdims c.column c.row

theorem sample_refs_eq {size : Nat} (b : Block size) (fs : List Raster) (i : Nat)
    (comp : Component) (r : Raster) (hi : fs[i]? = some r)
    (hin : b.contents_.inside (r.plane comp)) :
    b.sample_refs fs i comp =
      some ((lattice_contexts size size).map fun c =>
        (⟨i, comp, (b.contents_.row_ + c.row) * (r.plane comp).width_ +
          (b.contents_.column_ + c.column)⟩ : SampleRef)) := by
  unfold Block.sample_refs
  apply allSome_map_some
  intro c hc
  exact sample_ref_eq b fs i comp r hi hin c.column c.row
    (lattice_contexts_mem size size c hc).1 (lattice_contexts_mem size size c hc).2

theorem sample_load_isSome {size : Nat} (b : Block size) (fs : List Raster) (i : Nat)
    (comp : Component) (r : Raster) (hi : fs[i]? = some r)
    (hin : b.contents_.inside (r.plane comp)) (hfull : (r.plane comp).full)
    (column row : Nat) (hc : column < size) (hr : row < size) :
    (Frames.load fs ⟨i, comp, (b.contents_.row_ + row) * (r.plane comp).width_ +
      (b.contents_.column_ + column)⟩).isSome = true := by
  unfold Frames.load
  simp only [hi, Option.some_bind]
  unfold TwoD.load
  unfold TwoDSubRange.inside at hin
  have hlt : (b.contents_.row_ + row) * (r.plane comp).width_ +
      (b.contents_.column_ + column) < (r.plane comp).storage_.length := by
    rw [hfull]
    exact index_lt _ _ _ _ (by omega) (by omega)
  rw [List.getElem?_eq_getElem hlt]
  rfl

/-- Blocks of different rasters, or with disjoint windows in the same plane,
share no sample. -/
theorem sample_refs_disjoint {size : Nat} (a b : Block size) (ia ib : Nat) (comp : Component)
    (fs : List Raster) (ra rb : Raster) (hia : fs[ia]? = some ra) (hib : fs[ib]? = some rb)
    (hina : a.contents_.inside (ra.plane comp)) (hinb : b.contents_.inside (rb.plane comp))
    (hdisj : ia ≠ ib ∨ a.contents_.disjoint b.contents_)
    (c1 r1 c2 r2 : Nat) (h1 : c1 < size) (h2 : r1 < size) (h3 : c2 < size) (h4 : r2 < size) :
    (⟨ia, comp, (a.contents_.row_ + r1) * (ra.plane comp).width_ +
        (a.contents_.column_ + c1)⟩ : SampleRef) ≠
      ⟨ib, comp, (b.contents_.row_ + r2) * (rb.plane comp).width_ +
        (b.contents_.column_ + c2)⟩ := by
  intro e
  obtain ⟨e1, -, e3⟩ := (SampleRef_eq_iff _ _).1 e.symm
  simp only at e1 e3
  rcases hdisj with hne | hd
  · exact hne e1.symm
  · subst e1
    rw [hia] at hib
    cases Option.some.inj hib
    unfold TwoDSubRange.inside at hina hinb
    unfold TwoDSubRange.disjoint at hd
    obtain ⟨e4, e5⟩ := index_inj _ _ _ _ _ (by omega) (by omega) e3
    omega

/-- `Block::operator=` between blocks that share no sample: the assignment
succeeds, every sample of the target holds the value the corresponding sample
of the source held, the samples outside the target are unchanged, and no plane
changes its dimensions. -/
theorem Block_assign_spec {size : Nat} (a b : Block size) (ia ib : Nat) (comp : Component)
    (fs : List Raster) (ra rb : Raster) (hia : fs[ia]? = some ra) (hib : fs[ib]? = some rb)
    (hina : a.contents_.inside (ra.plane comp)) (hinb : b.contents_.inside (rb.plane comp))
    (hfa : (ra.plane comp).full) (hfb : (rb.plane comp).full)
    (hdisj : ia ≠ ib ∨ a.contents_.disjoint b.contents_) :
    ∃ fs2 : List Raster, a.assign ia b ib comp fs = some fs2 ∧
      (∀ column row : Nat, column < size → row < size →
        Frames.load fs2 ⟨ia, comp, (a.contents_.row_ + row) * (ra.plane comp).width_ +
            (a.contents_.column_ + column)⟩ =
          Frames.load fs ⟨ib, comp, (b.contents_.row_ + row) * (rb.plane comp).width_ +
            (b.contents_.column_ + column)⟩) ∧
      (∀ l : SampleRef, (∀ column row : Nat, column < size → row < size →
          (⟨ia, comp, (a.contents_.row_ + row) * (ra.plane comp).width_ +
            (a.contents_.column_ + column)⟩ : SampleRef) ≠ l) →
        Frames.load fs2 l = Frames.load fs l) ∧
      (∀ (i : Nat) (comp2 : Component),
        Frames.shape fs2 i comp2 = Frames.shape fs i comp2) := by
  have hmem : ∀ x ∈ (lattice_contexts size size).map (fun c : Context =>
      ((⟨ia, comp, (a.contents_.row_ + c.row) * (ra.plane comp).width_ +
          (a.contents_.column_ + c.column)⟩ : SampleRef),
        (⟨ib, comp, (b.contents_.row_ + c.row) * (rb.plane comp).width_ +
          (b.contents_.column_ + c.column)⟩ : SampleRef))),
      ∃ c : Context, c.column < size ∧ c.row < size ∧
        x = (⟨ia, comp, (a.contents_.row_ + c.row) * (ra.plane comp).width_ +
            (a.contents_.column_ + c.column)⟩,
          ⟨ib, comp, (b.contents_.row_ + c.row) * (rb.plane comp).width_ +
            (b.contents_.column_ + c.column)⟩) := by
    intro x hx
    obtain ⟨c, hc, rfl⟩ := List.mem_map.mp hx
    exact ⟨c, (lattice_contexts_mem size size c hc).1, (lattice_contexts_mem size size c hc).2,
      rfl⟩
  obtain ⟨fs2, hcopy, hcopied, hother, hdims⟩ := Frames_copy_spec
    ((lattice_contexts size size).map (fun c : Context =>
      ((⟨ia, comp, (a.contents_.row_ + c.row) * (ra.plane comp).width_ +
          (a.contents_.column_ + c.column)⟩ : SampleRef),
        (⟨ib, comp, (b.contents_.row_ + c.row) * (rb.plane comp).width_ +
          (b.contents_.column_ + c.column)⟩ : SampleRef)))) fs
    (by
      intro x hx
      obtain ⟨c, hc, hr, rfl⟩ := hmem x hx
      exact ⟨sample_load_isSome a fs ia comp ra hia hina hfa c.column c.row hc hr,
        sample_load_isSome b fs ib comp rb hib hinb hfb c.column c.row hc hr⟩)
    (by
      intro x hx y hy
      obtain ⟨c, hc, hr, rfl⟩ := hmem x hx
      obtain ⟨d, hdc, hdr, rfl⟩ := hmem y hy
      exact sample_refs_disjoint a b ia ib comp fs ra rb hia hib hina hinb hdisj
        c.column c.row d.column d.row hc hr hdc hdr)
    (by
      intro x hx y hy hxy
      obtain ⟨c, hc, hr, rfl⟩ := hmem x hx
      obtain ⟨d, hdc, hdr, rfl⟩ := hmem y hy
      obtain ⟨-, -, e3⟩ := (SampleRef_eq_iff _ _).1 hxy.symm
      simp only at e3
      unfold TwoDSubRange.inside at hina
      obtain ⟨e4, e5⟩ := index_inj _ _ _ _ _ (by omega) (by omega) e3
      have e6 : d.column = c.column := by omega
      have e7 : d.row = c.row := by omega
      simp only [e6, e7])
  refine ⟨fs2, ?_, ?_, ?_, hdims⟩
  · unfold Block.assign
    rw [sample_refs_eq a fs ia comp ra hia hina, sample_refs_eq b fs ib comp rb hib hinb]
    simp only [Option.some_bind, List.zip_map']
    exact hcopy
  · intro column row hc hr
    exact hcopied _ (List.mem_map.mpr ⟨⟨column, row⟩,
      mem_lattice_contexts size size ⟨column, row⟩ hc hr, rfl⟩)
  · intro l hl
    apply hother
    intro x hx
    obtain ⟨c, hc, hr, rfl⟩ := hmem x hx
    exact hl c.column c.row hc hr


theorem valid_in_of_shape (m : MacroblockRef) (fs fs2 : List Raster)
    (hshape : ∀ (i : Nat) (comp : Component), Frames.shape fs2 i comp = Frames.shape fs i comp)
    (hv : m.valid_in fs) : m.valid_in fs2 := by
  obtain ⟨r, hr, hall⟩ := hv
  cases h2 : fs2[m.raster]? with
  | none =>
    have := hshape m.raster Component.Y
    unfold Frames.shape at this
    rw [hr, h2] at this
    cases this
  | some r2 =>
    refine ⟨r2, h2, ?_⟩
    intro comp
    have := hshape m.raster comp
    unfold Frames.shape at this
    rw [hr, h2] at this
    simp only [Option.map_some', Option.some.injEq, Prod.mk.injEq] at this
    obtain ⟨hin, hfull⟩ := hall comp
    unfold TwoDSubRange.inside TwoD.full at *
    rw [this.1, this.2.1, this.2.2]
    exact ⟨hin, hfull⟩

theorem sample_congr (m : MacroblockRef) (fs fs2 : List Raster)
    (hshape : ∀ (i : Nat) (comp : Component), Frames.shape fs2 i comp = Frames.shape fs i comp)
    (comp : Component) (column row : Nat) :
    m.sample fs2 comp column row = m.sample fs comp column row :=
  sample_ref_congr _ fs fs2 m.raster comp (hshape m.raster comp) column row

/-- Samples of two different macroblocks are different samples. -/
theorem sample_ne (a b : MacroblockRef) (fs : List Raster) (hva : a.valid_in fs)
    (hvb : b.valid_in fs) (hd : a.disjoint b) (comp comp2 : Component)
    (c r c2 r2 : Nat) (hc : c < comp.size) (hr : r < comp.size)
    (hc2 : c2 < comp2.size) (hr2 : r2 < comp2.size) (la lb : SampleRef)
    (hla : a.sample fs comp c r = some la) (hlb : b.sample fs comp2 c2 r2 = some lb) :
    la ≠ lb := by
  obtain ⟨ra, hra, halla⟩ := hva
  obtain ⟨rb, hrb, hallb⟩ := hvb
  unfold MacroblockRef.sample at hla hlb
  rw [sample_ref_eq _ fs _ comp ra hra (halla comp).1 c r hc hr] at hla
  rw [sample_ref_eq _ fs _ comp2 rb hrb (hallb comp2).1 c2 r2 hc2 hr2] at hlb
  cases Option.some.inj hla
  cases Option.some.inj hlb
  by_cases e : comp = comp2
  · subst e
    refine sample_refs_disjoint _ _ _ _ comp fs ra rb hra hrb (halla comp).1 (hallb comp).1 ?_
      c r c2 r2 hc hr hc2 hr2
    rcases hd with h | h
    · exact Or.inl h
    · exact Or.inr (h comp)
  · intro h
    exact e (congrArg SampleRef.component h)

theorem sample_some (m : MacroblockRef) (fs : List Raster) (hv : m.valid_in fs)
    (comp : Component) (c r : Nat) (hc : c < comp.size) (hr : r < comp.size) :
    ∃ l : SampleRef, m.sample fs comp c r = some l ∧ (Frames.load fs l).isSome = true := by
  obtain ⟨ra, hra, hall⟩ := hv
  exact ⟨_, sample_ref_eq _ fs _ comp ra hra (hall comp).1 c r hc hr,
    sample_load_isSome _ fs _ comp ra hra (hall comp).1 (hall comp).2 c r hc hr⟩

/-- One `Block::operator=` of a macroblock assignment, on plane `k`: it succeeds,
keeps all plane shapes, copies the samples of plane `k` from `b` to `a`, and
leaves the other planes of `a` and all of `b` as they were. -/
theorem assign_step (a b : MacroblockRef) (k : Component) (fs : List Raster)
    (hva : a.valid_in fs) (hvb : b.valid_in fs) (hd : a.disjoint b) :
    ∃ fs2 : List Raster,
      (a.mb.block k).assign a.raster (b.mb.block k) b.raster k fs = some fs2 ∧
      (∀ (i : Nat) (comp : Component), Frames.shape fs2 i comp = Frames.shape fs i comp) ∧
      ∀ (comp : Component) (c r : Nat), c < comp.size → r < comp.size →
        ∀ la lb : SampleRef, a.sample fs comp c r = some la → b.sample fs comp c r = some lb →
          Frames.load fs2 lb = Frames.load fs lb ∧
          Frames.load fs2 la = if comp = k then Frames.load fs lb else Frames.load fs la := by
  have hva2 := hva
  have hvb2 := hvb
  obtain ⟨ra, hra, halla⟩ := hva2
  obtain ⟨rb, hrb, hallb⟩ := hvb2
  obtain ⟨fs2, hassign, hcopied, hother, hshape⟩ :=
    Block_assign_spec (a.mb.block k) (b.mb.block k) a.raster b.raster k fs ra rb hra hrb
      (halla k).1 (hallb k).1 (halla k).2 (hallb k).2
      (by
        rcases hd with h | h
        · exact Or.inl h
        · exact Or.inr (h k))
  refine ⟨fs2, hassign, hshape, ?_⟩
  intro comp c r hc hr la lb hla hlb
  have hnotdst : ∀ (l : SampleRef) (comp2 : Component) (c2 r2 : Nat), c2 < comp2.size →
      r2 < comp2.size → (b.sample fs comp2 c2 r2 = some l ∨
        (comp2 ≠ k ∧ a.sample fs comp2 c2 r2 = some l)) →
      ∀ column row : Nat, column < k.size → row < k.size →
        (⟨a.raster, k, ((a.mb.block k).contents_.row_ + row) * (ra.plane k).width_ +
          ((a.mb.block k).contents_.column_ + column)⟩ : SampleRef) ≠ l := by
    intro l comp2 c2 r2 hc2 hr2 hl column row hcol hrow
    have hdst : a.sample fs k column row = some
        ⟨a.raster, k, ((a.mb.block k).contents_.row_ + row) * (ra.plane k).width_ +
          ((a.mb.block k).contents_.column_ + column)⟩ :=
      sample_ref_eq _ fs _ k ra hra (halla k).1 column row hcol hrow
    rcases hl with hl | ⟨hne, hl⟩
    · exact sample_ne a b fs hva hvb hd k comp2 column row c2 r2 hcol hrow hc2 hr2 _ _ hdst hl
    · intro e
      unfold MacroblockRef.sample at hl
      rw [sample_ref_eq _ fs _ comp2 ra hra (halla comp2).1 c2 r2 hc2 hr2] at hl
      cases Option.some.inj hl
      exact hne (congrArg SampleRef.component e).symm
  constructor
  · exact hother lb (hnotdst lb comp c r hc hr (Or.inl hlb))
  · by_cases e : comp = k
    · subst e
      rw [if_pos rfl]
      unfold MacroblockRef.sample at hla hlb
      rw [sample_ref_eq _ fs _ comp ra hra (halla comp).1 c r hc hr] at hla
      rw [sample_ref_eq _ fs _ comp rb hrb (hallb comp).1 c r hc hr] at hlb
      cases Option.some.inj hla
      cases Option.some.inj hlb
      exact hcopied c r hc hr
    · rw [if_neg e]
      exact hother la (hnotdst la comp c r hc hr (Or.inr ⟨e, hla⟩))


theorem Block_equal_true {size : Nat} (a b : Block size) (ia ib : Nat) (comp : Component)
    (fs : List Raster)
    (h : ∀ c r : Nat, c < size → r < size → ∃ la lb : SampleRef,
      a.sample_ref fs ia comp c r = some la ∧ b.sample_ref fs ib comp c r = some lb ∧
      Frames.load fs la = Frames.load fs lb ∧ (Frames.load fs lb).isSome = true) :
    a.equal ia b ib comp fs = some true := by
  have hA : a.sample_refs fs ia comp = some ((lattice_contexts size size).map fun c =>
      (a.sample_ref fs ia comp c.column c.row).getD ⟨0, Component.Y, 0⟩) := by
    unfold Block.sample_refs
    apply allSome_map_some
    intro c hc
    obtain ⟨la, lb, h1, -⟩ := h c.column c.row (lattice_contexts_mem size size c hc).1
      (lattice_contexts_mem size size c hc).2
    simp only [h1, Option.getD_some]
  have hB : b.sample_refs fs ib comp = some ((lattice_contexts size size).map fun c =>
      (b.sample_ref fs ib comp c.column c.row).getD ⟨0, Component.Y, 0⟩) := by
    unfold Block.sample_refs
    apply allSome_map_some
    intro c hc
    obtain ⟨la, lb, -, h2, -⟩ := h c.column c.row (lattice_contexts_mem size size c hc).1
      (lattice_contexts_mem size size c hc).2
    simp only [h2, Option.getD_some]
  have hVa : allSome (((lattice_contexts size size).map fun c =>
      (a.sample_ref fs ia comp c.column c.row).getD ⟨0, Component.Y, 0⟩).map (Frames.load fs)) =
      some ((lattice_contexts size size).map fun c =>
        (Frames.load fs ((b.sample_ref fs ib comp c.column c.row).getD
          ⟨0, Component.Y, 0⟩)).getD 0) := by
    rw [List.map_map]
    apply allSome_map_some
    intro c hc
    obtain ⟨la, lb, h1, h2, h3, h4⟩ := h c.column c.row (lattice_contexts_mem size size c hc).1
      (lattice_contexts_mem size size c hc).2
    obtain ⟨v, hv⟩ := Option.isSome_iff_exists.mp h4
    simp only [Function.comp, h1, h2, Option.getD_some, h3, hv]
  have hVb : allSome (((lattice_contexts size size).map fun c =>
      (b.sample_ref fs ib comp c.column c.row).getD ⟨0, Component.Y, 0⟩).map (Frames.load fs)) =
      some ((lattice_contexts size size).map fun c =>
        (Frames.load fs ((b.sample_ref fs ib comp c.column c.row).getD
          ⟨0, Component.Y, 0⟩)).getD 0) := by
    rw [List.map_map]
    apply allSome_map_some
    intro c hc
    obtain ⟨la, lb, h1, h2, h3, h4⟩ := h c.column c.row (lattice_contexts_mem size size c hc).1
      (lattice_contexts_mem size size c hc).2
    obtain ⟨v, hv⟩ := Option.isSome_iff_exists.mp h4
    simp only [Function.comp, h2, Option.getD_some, hv]
  unfold Block.equal
  rw [hA, hB]
  simp only [Option.some_bind]
  rw [hVa, hVb]
  simp

/-- `Macroblock::operator=` between two different valid macroblocks: the three
block assignments succeed in turn; afterwards every sample of `a` holds the
value the corresponding sample of `b` held, and `b` is unchanged. -/
theorem Macroblock_assign_spec (a b : MacroblockRef) (fs : List Raster)
    (hva : a.valid_in fs) (hvb : b.valid_in fs) (hd : a.disjoint b) :
    ∃ fs3 : List Raster, Macroblock.assign a b fs = some fs3 ∧
      (∀ (i : Nat) (comp : Component), Frames.shape fs3 i comp = Frames.shape fs i comp) ∧
      ∀ (comp : Component) (c r : Nat), c < comp.size → r < comp.size →
        ∀ la lb : SampleRef, a.sample fs comp c r = some la → b.sample fs comp c r = some lb →
          Frames.load fs3 lb = Frames.load fs lb ∧ Frames.load fs3 la = Frames.load fs lb := by
  obtain ⟨fs1, h1, hs1, hp1⟩ := assign_step a b Component.Y fs hva hvb hd
  have hva1 := valid_in_of_shape a fs fs1 hs1 hva
  have hvb1 := valid_in_of_shape b fs fs1 hs1 hvb
  obtain ⟨fs2, h2, hs2, hp2⟩ := assign_step a b Component.U fs1 hva1 hvb1 hd
  have hva2 := valid_in_of_shape a fs1 fs2 hs2 hva1
  have hvb2 := valid_in_of_shape b fs1 fs2 hs2 hvb1
  obtain ⟨fs3, h3, hs3, hp3⟩ := assign_step a b Component.V fs2 hva2 hvb2 hd
  refine ⟨fs3, ?_, ?_, ?_⟩
  · unfold Macroblock.assign
    have e1 : a.mb.Y.assign a.raster b.mb.Y b.raster Component.Y fs = some fs1 := h1
    have e2 : a.mb.U.assign a.raster b.mb.U b.raster Component.U fs1 = some fs2 := h2
    have e3 : a.mb.V.assign a.raster b.mb.V b.raster Component.V fs2 = some fs3 := h3
    rw [e1, Option.some_bind, e2, Option.some_bind, e3]
  · intro i comp
    rw [hs3, hs2, hs1]
  · intro comp c r hc hr la lb hla hlb
    have hla1 : a.sample fs1 comp c r = some la := by rw [sample_congr a fs fs1 hs1]; exact hla
    have hlb1 : b.sample fs1 comp c r = some lb := by rw [sample_congr b fs fs1 hs1]; exact hlb
    have hla2 : a.sample fs2 comp c r = some la := by rw [sample_congr a fs1 fs2 hs2]; exact hla1
    have hlb2 : b.sample fs2 comp c r = some lb := by rw [sample_congr b fs1 fs2 hs2]; exact hlb1
    obtain ⟨q1b, q1a⟩ := hp1 comp c r hc hr la lb hla hlb
    obtain ⟨q2b, q2a⟩ := hp2 comp c r hc hr la lb hla1 hlb1
    obtain ⟨q3b, q3a⟩ := hp3 comp c r hc hr la lb hla2 hlb2
    refine ⟨by rw [q3b, q2b, q1b], ?_⟩
    rw [q3a, q2a, q1a, q2b, q1b]
    cases comp <;> simp

theorem Macroblock_equal_true (a b : MacroblockRef) (fs : List Raster)
    (hva : a.valid_in fs) (hvb : b.valid_in fs)
    (h : ∀ (comp : Component) (c r : Nat), c < comp.size → r < comp.size →
      ∀ la lb : SampleRef, a.sample fs comp c r = some la → b.sample fs comp c r = some lb →
        Frames.load fs la = Frames.load fs lb) :
    Macroblock.equal a b fs = some true := by
  have hblock : ∀ comp : Component,
      (a.mb.block comp).equal a.raster (b.mb.block comp) b.raster comp fs = some true := by
    intro comp
    apply Block_equal_true
    intro c r hc hr
    obtain ⟨la, hla, -⟩ := sample_some a fs hva comp c r hc hr
    obtain ⟨lb, hlb, hsome⟩ := sample_some b fs hvb comp c r hc hr
    exact ⟨la, lb, hla, hlb, h comp c r hc hr la lb hla hlb, hsome⟩
  have eY : a.mb.Y.equal a.raster b.mb.Y b.raster Component.Y fs = some true :=
    hblock Component.Y
  have eU : a.mb.U.equal a.raster b.mb.U b.raster Component.U fs = some true :=
    hblock Component.U
  have eV : a.mb.V.equal a.raster b.mb.V b.raster Component.V fs = some true :=
    hblock Component.V
  unfold Macroblock.equal
  rw [eY, eU, eV]
  rfl


/-- A macroblock returned by the grid of a valid raster views, in each plane, the
window at `size * column`, `size * row`, which lies inside the plane. -/
theorem macroblock_of_valid (r : Raster) (hv : r.valid) (column row : Nat) (mb : Macroblock)
    (h : r.macroblock column row = some mb) :
    ∀ comp : Component,
      (mb.block comp).contents_ = ⟨comp.size * column, comp.size * row⟩ ∧
      (mb.block comp).contents_.inside (r.plane comp) ∧ (r.plane comp).full := by
  obtain ⟨dw, dh, r0, hdw, hdh, hr0, hmbs, hplanes⟩ := hv
  obtain ⟨-, -, -, -, rfl⟩ := construct_some_eq_padded dw dh hdw hdh r0 hr0
  obtain ⟨k, hk⟩ : ∃ k, (dw + 15) / 16 = k := ⟨_, rfl⟩
  obtain ⟨l, hl⟩ : ∃ l, (dh + 15) / 16 = l := ⟨_, rfl⟩
  have e16w : 16 * k / 16 = k := by omega
  have e16h : 16 * l / 16 = l := by omega
  have hget : (lattice_of k l fun c : Context =>
      (⟨⟨⟨16 * c.column, 16 * c.row⟩, c⟩, ⟨⟨8 * c.column, 8 * c.row⟩, c⟩,
        ⟨⟨8 * c.column, 8 * c.row⟩, c⟩, ⟨4 * c.column, 4 * c.row⟩,
        ⟨2 * c.column, 2 * c.row⟩, ⟨2 * c.column, 2 * c.row⟩⟩ : Macroblock)).get column row
      = some mb := by
    have := h
    unfold Raster.macroblock at this
    rw [hmbs] at this
    unfold Raster.padded at this
    simp only [hk, hl, e16w, e16h] at this
    exact this
  rw [lattice_of_get] at hget
  split_ifs at hget with hin
  obtain ⟨hc, hrow⟩ := hin
  cases Option.some.inj hget
  intro comp
  obtain ⟨hw, hh, hfull⟩ := hplanes comp
  refine ⟨by cases comp <;> rfl, ?_, hfull⟩
  unfold TwoDSubRange.inside
  rw [hw, hh]
  cases comp
  · show 16 * column + 16 ≤ 16 * ((dw + 15) / 16) ∧ 16 * row + 16 ≤ 16 * ((dh + 15) / 16)
    omega
  · show 8 * column + 8 ≤ 16 * ((dw + 15) / 16) / 2 ∧ 8 * row + 8 ≤ 16 * ((dh + 15) / 16) / 2
    omega
  · show 8 * column + 8 ≤ 16 * ((dw + 15) / 16) / 2 ∧ 8 * row + 8 ≤ 16 * ((dh + 15) / 16) / 2
    omega

/-- A constructed raster whose padded area does not wrap is valid. -/
theorem padded_valid (dw dh : Nat) (hw0 : 0 < dw) (hw : dw + 15 < UINT_RANGE)
    (hh0 : 0 < dh) (hh : dh + 15 < UINT_RANGE)
    (harea : (16 * ((dw + 15) / 16)) * (16 * ((dh + 15) / 16)) < UINT_RANGE) :
    (Raster.padded dw dh).valid := by
  refine ⟨dw, dh, Raster.padded dw dh, by omega, by omega,
    construct_eq_padded dw dh hw0 hw hh0 hh, rfl, ?_⟩
  intro comp
  refine ⟨rfl, rfl, ?_⟩
  unfold TwoD.full
  cases comp
  · show (List.replicate _ 0).length = _
    rw [List.length_replicate]
    exact Nat.mod_eq_of_lt harea
  · show (List.replicate _ 0).length = _
    rw [List.length_replicate]
    apply Nat.mod_eq_of_lt
    calc 16 * ((dw + 15) / 16) / 2 * (16 * ((dh + 15) / 16) / 2)
        ≤ 16 * ((dw + 15) / 16) * (16 * ((dh + 15) / 16)) :=
          Nat.mul_le_mul (Nat.div_le_self _ _) (Nat.div_le_self _ _)
      _ < UINT_RANGE := harea
  · show (List.replicate _ 0).length = _
    rw [List.length_replicate]
    apply Nat.mod_eq_of_lt
    calc 16 * ((dw + 15) / 16) / 2 * (16 * ((dh + 15) / 16) / 2)
        ≤ 16 * ((dw + 15) / 16) * (16 * ((dh + 15) / 16)) :=
          Nat.mul_le_mul (Nat.div_le_self _ _) (Nat.div_le_self _ _)
      _ < UINT_RANGE := harea

/-- C6: macroblock assignment is a deep copy of contents. For any two different
macroblocks `a` and `b` of valid rasters (of two rasters, or at two grid
positions of one raster), `a = b` succeeds; afterwards `a == b` is true, every
Y, U and V sample of `a` holds the value the corresponding sample of `b` held
(and still holds), through the same references as before the assignment; and a
later write of any value to any sample of `b` succeeds and leaves every sample
of `a` unchanged. -/
theorem macroblock_assign_deep_copy (fs : List Raster) (ia ib : Nat) (ra rb : Raster)
    (hia : fs[ia]? = some ra) (hib : fs[ib]? = some rb) (hvra : ra.valid) (hvrb : rb.valid)
    (ca rowa cb rowb : Nat) (mba mbb : Macroblock)
    (hmba : ra.macroblock ca rowa = some mba) (hmbb : rb.macroblock cb rowb = some mbb)
    (hne : ia ≠ ib ∨ ca ≠ cb ∨ rowa ≠ rowb) :
    ∃ fs2 : List Raster,
      Macroblock.assign ⟨ia, mba⟩ ⟨ib, mbb⟩ fs = some fs2 ∧
      Macroblock.equal ⟨ia, mba⟩ ⟨ib, mbb⟩ fs2 = some true ∧
      ∀ (comp : Component) (c r : Nat), c < comp.size → r < comp.size →
        ∃ (la lb : SampleRef) (v : Nat),
          (⟨ia, mba⟩ : MacroblockRef).sample fs2 comp c r = some la ∧
          (⟨ib, mbb⟩ : MacroblockRef).sample fs2 comp c r = some lb ∧
          (⟨ia, mba⟩ : MacroblockRef).sample fs comp c r = some la ∧
          (⟨ib, mbb⟩ : MacroblockRef).sample fs comp c r = some lb ∧
          Frames.load fs lb = some v ∧ Frames.load fs2 la = some v ∧
          Frames.load fs2 lb = some v ∧
          ∀ (comp2 : Component) (c2 r2 : Nat), c2 < comp2.size → r2 < comp2.size →
            ∀ w : Nat, ∃ (lb2 : SampleRef) (fs3 : List Raster),
              (⟨ib, mbb⟩ : MacroblockRef).sample fs2 comp2 c2 r2 = some lb2 ∧
              Frames.store fs2 lb2 w = some fs3 ∧
              Frames.load fs3 lb2 = some w ∧ Frames.load fs3 la = some v := by
  have hfa := macroblock_of_valid ra hvra ca rowa mba hmba
  have hfb := macroblock_of_valid rb hvrb cb rowb mbb hmbb
  have hva : (⟨ia, mba⟩ : MacroblockRef).valid_in fs :=
    ⟨ra, hia, fun comp => (hfa comp).2⟩
  have hvb : (⟨ib, mbb⟩ : MacroblockRef).valid_in fs :=
    ⟨rb, hib, fun comp => (hfb comp).2⟩
  have hd : (⟨ia, mba⟩ : MacroblockRef).disjoint ⟨ib, mbb⟩ := by
    by_cases e : ia = ib
    · right
      intro comp
      unfold TwoDSubRange.disjoint
      show (mba.block comp).contents_.column_ + comp.size ≤ (mbb.block comp).contents_.column_ ∨
        (mbb.block comp).contents_.column_ + comp.size ≤ (mba.block comp).contents_.column_ ∨
        (mba.block comp).contents_.row_ + comp.size ≤ (mbb.block comp).contents_.row_ ∨
        (mbb.block comp).contents_.row_ + comp.size ≤ (mba.block comp).contents_.row_
      rw [(hfa comp).1, (hfb comp).1]
      have hne2 : ca ≠ cb ∨ rowa ≠ rowb := by
        rcases hne with h | h
        · exact absurd e h
        · exact h
      cases comp <;> simp only [Component.size] <;> omega
    · exact Or.inl e
  obtain ⟨fs2, hassign, hshape, hcopied⟩ := Macroblock_assign_spec _ _ fs hva hvb hd
  have hva2 := valid_in_of_shape _ fs fs2 hshape hva
  have hvb2 := valid_in_of_shape _ fs fs2 hshape hvb
  have hsame : ∀ (comp : Component) (c r : Nat), c < comp.size → r < comp.size →
      ∀ la lb : SampleRef, (⟨ia, mba⟩ : MacroblockRef).sample fs2 comp c r = some la →
        (⟨ib, mbb⟩ : MacroblockRef).sample fs2 comp c r = some lb →
        Frames.load fs2 lb = Frames.load fs lb ∧ Frames.load fs2 la = Frames.load fs lb := by
    intro comp c r hc hr la lb hla hlb
    rw [sample_congr _ fs fs2 hshape] at hla hlb
    exact hcopied comp c r hc hr la lb hla hlb
  refine ⟨fs2, hassign, ?_, ?_⟩
  · apply Macroblock_equal_true _ _ fs2 hva2 hvb2
    intro comp c r hc hr la lb hla hlb
    obtain ⟨q1, q2⟩ := hsame comp c r hc hr la lb hla hlb
    rw [q1, q2]
  · intro comp c r hc hr
    obtain ⟨la, hla, -⟩ := sample_some _ fs2 hva2 comp c r hc hr
    obtain ⟨lb, hlb, hlbsome⟩ := sample_some _ fs2 hvb2 comp c r hc hr
    obtain ⟨q1, q2⟩ := hsame comp c r hc hr la lb hla hlb
    obtain ⟨v, hv⟩ := Option.isSome_iff_exists.mp hlbsome
    refine ⟨la, lb, v, hla, hlb, by rw [← sample_congr _ fs fs2 hshape]; exact hla,
      by rw [← sample_congr _ fs fs2 hshape]; exact hlb,
      by rw [← q1, hv], by rw [q2, ← q1, hv], hv, ?_⟩
    intro comp2 c2 r2 hc2 hr2 w
    obtain ⟨lb2, hlb2, hlb2some⟩ := sample_some _ fs2 hvb2 comp2 c2 r2 hc2 hr2
    obtain ⟨fs3, hfs3⟩ := Frames_store_isSome fs2 lb2 w hlb2some
    obtain ⟨hload3, -⟩ := Frames_store_spec fs2 fs3 lb2 w hfs3
    have hneq : la ≠ lb2 :=
      sample_ne _ _ fs2 hva2 hvb2 hd comp comp2 c r c2 r2 hc hr hc2 hr2 la lb2 hla hlb2
    refine ⟨lb2, fs3, hlb2, hfs3, by rw [hload3, if_pos rfl], ?_⟩
    rw [hload3, if_neg hneq, q2, ← q1, hv]


set_option maxRecDepth 100000 in
/-- Witness of `macroblock_assign_deep_copy`: one raster of display size 32 x 16
whose luma plane holds a different value at almost every position, target
macroblock (0, 0) and source macroblock (1, 0). Before the assignment the two
macroblocks compare unequal; luma sample (3, 5) of the target holds 163 before
the assignment and the source's 179 after it, and keeps 179 when the source's
sample is then overwritten with 200. -/
theorem macroblock_assign_deep_copy_witness :
    ((Raster.padded 32 16).set_plane Component.Y
      ⟨32, 16, (List.range 512).map fun i => i % 251⟩).valid ∧
    Macroblock.equal
      ⟨0, ⟨⟨⟨0, 0⟩, ⟨0, 0⟩⟩, ⟨⟨0, 0⟩, ⟨0, 0⟩⟩, ⟨⟨0, 0⟩, ⟨0, 0⟩⟩, ⟨0, 0⟩, ⟨0, 0⟩, ⟨0, 0⟩⟩⟩
      ⟨0, ⟨⟨⟨16, 0⟩, ⟨1, 0⟩⟩, ⟨⟨8, 0⟩, ⟨1, 0⟩⟩, ⟨⟨8, 0⟩, ⟨1, 0⟩⟩, ⟨4, 0⟩, ⟨2, 0⟩, ⟨2, 0⟩⟩⟩
      [(Raster.padded 32 16).set_plane Component.Y
        ⟨32, 16, (List.range 512).map fun i => i % 251⟩] = some false ∧
    ∃ (fs2 : List Raster) (la lb : SampleRef),
      Macroblock.assign
        ⟨0, ⟨⟨⟨0, 0⟩, ⟨0, 0⟩⟩, ⟨⟨0, 0⟩, ⟨0, 0⟩⟩, ⟨⟨0, 0⟩, ⟨0, 0⟩⟩, ⟨0, 0⟩, ⟨0, 0⟩, ⟨0, 0⟩⟩⟩
        ⟨0, ⟨⟨⟨16, 0⟩, ⟨1, 0⟩⟩, ⟨⟨8, 0⟩, ⟨1, 0⟩⟩, ⟨⟨8, 0⟩, ⟨1, 0⟩⟩, ⟨4, 0⟩, ⟨2, 0⟩, ⟨2, 0⟩⟩⟩
        [(Raster.padded 32 16).set_plane Component.Y
          ⟨32, 16, (List.range 512).map fun i => i % 251⟩] = some fs2 ∧
      Macroblock.equal
        ⟨0, ⟨⟨⟨0, 0⟩, ⟨0, 0⟩⟩, ⟨⟨0, 0⟩, ⟨0, 0⟩⟩, ⟨⟨0, 0⟩, ⟨0, 0⟩⟩, ⟨0, 0⟩, ⟨0, 0⟩, ⟨0, 0⟩⟩⟩
        ⟨0, ⟨⟨⟨16, 0⟩, ⟨1, 0⟩⟩, ⟨⟨8, 0⟩, ⟨1, 0⟩⟩, ⟨⟨8, 0⟩, ⟨1, 0⟩⟩, ⟨4, 0⟩, ⟨2, 0⟩, ⟨2, 0⟩⟩⟩
        fs2 = some true ∧
      la = ⟨0, Component.Y, 163⟩ ∧ lb = ⟨0, Component.Y, 179⟩ ∧
      Frames.load [(Raster.padded 32 16).set_plane Component.Y
        ⟨32, 16, (List.range 512).map fun i => i % 251⟩] la = some 163 ∧
      Frames.load [(Raster.padded 32 16).set_plane Component.Y
        ⟨32, 16, (List.range 512).map fun i => i % 251⟩] lb = some 179 ∧
      Frames.load fs2 la = some 179 ∧ Frames.load fs2 lb = some 179 ∧
      ∃ fs3 : List Raster, Frames.store fs2 lb 200 = some fs3 ∧
        Frames.load fs3 lb = some 200 ∧ Frames.load fs3 la = some 179 := by
  have hvalid : ((Raster.padded 32 16).set_plane Component.Y
      ⟨32, 16, (List.range 512).map fun i => i % 251⟩).valid := by
    refine ⟨32, 16, Raster.padded 32 16, by norm_num [UINT_RANGE], by norm_num [UINT_RANGE],
      construct_eq_padded 32 16 (by decide) (by norm_num [UINT_RANGE]) (by decide)
        (by norm_num [UINT_RANGE]), rfl, ?_⟩
    obtain ⟨dw0, dh0, r0, -, -, -, -, hplanes⟩ :=
      padded_valid 32 16 (by decide) (by norm_num [UINT_RANGE]) (by decide)
        (by norm_num [UINT_RANGE]) (by norm_num [UINT_RANGE])
    intro comp
    rw [plane_set_plane]
    by_cases hY : comp = Component.Y
    · subst hY
      rw [if_pos rfl]
      refine ⟨rfl, rfl, ?_⟩
      unfold TwoD.full
      rw [List.length_map, List.length_range]
      rfl
    · rw [if_neg hY]
      exact ⟨rfl, rfl, (hplanes comp).2.2⟩
  obtain ⟨fs2, hassign, hequal, hsamples⟩ :=
    macroblock_assign_deep_copy
      [(Raster.padded 32 16).set_plane Component.Y
        ⟨32, 16, (List.range 512).map fun i => i % 251⟩] 0 0 _ _ rfl rfl hvalid hvalid
      0 0 1 0
      ⟨⟨⟨0, 0⟩, ⟨0, 0⟩⟩, ⟨⟨0, 0⟩, ⟨0, 0⟩⟩, ⟨⟨0, 0⟩, ⟨0, 0⟩⟩, ⟨0, 0⟩, ⟨0, 0⟩, ⟨0, 0⟩⟩
      ⟨⟨⟨16, 0⟩, ⟨1, 0⟩⟩, ⟨⟨8, 0⟩, ⟨1, 0⟩⟩, ⟨⟨8, 0⟩, ⟨1, 0⟩⟩, ⟨4, 0⟩, ⟨2, 0⟩, ⟨2, 0⟩⟩
      (by rfl) (by rfl) (Or.inr (Or.inl (by decide)))
  obtain ⟨la, lb, v, -, -, hla0, hlb0, hv0, hv2a, hv2b, hlater⟩ :=
    hsamples Component.Y 3 5 (by decide) (by decide)
  have ela : la = ⟨0, Component.Y, 163⟩ := by
    have h : (some la : Option SampleRef) = some ⟨0, Component.Y, 163⟩ := by
      rw [← hla0]
      simp [MacroblockRef.sample, Macroblock.block, Block.sample_ref, Block.at,
        TwoDSubRange.at, TwoD.at, Raster.set_plane, Raster.plane, Component.size]
    exact Option.some.inj h
  have elb : lb = ⟨0, Component.Y, 179⟩ := by
    have h : (some lb : Option SampleRef) = some ⟨0, Component.Y, 179⟩ := by
      rw [← hlb0]
      simp [MacroblockRef.sample, Macroblock.block, Block.sample_ref, Block.at,
        TwoDSubRange.at, TwoD.at, Raster.set_plane, Raster.plane, Component.size]
    exact Option.some.inj h
  have hb0 : Frames.load [(Raster.padded 32 16).set_plane Component.Y
      ⟨32, 16, (List.range 512).map fun i => i % 251⟩] lb = some 179 := by
    rw [elb]
    simp [Frames.load, TwoD.load, Raster.set_plane, Raster.plane, List.getElem?_range]
  have ha0 : Frames.load [(Raster.padded 32 16).set_plane Component.Y
      ⟨32, 16, (List.range 512).map fun i => i % 251⟩] la = some 163 := by
    rw [ela]
    simp [Frames.load, TwoD.load, Raster.set_plane, Raster.plane, List.getElem?_range]
  have ev : v = 179 := by
    rw [hv0] at hb0
    exact Option.some.inj hb0
  subst ev
  obtain ⟨lb2, fs3, hlb2, hstore, hload3b, hload3a⟩ :=
    hlater Component.Y 3 5 (by decide) (by decide) 200
  have elb2 : lb2 = lb := by
    have h : (⟨0, ⟨⟨⟨16, 0⟩, ⟨1, 0⟩⟩, ⟨⟨8, 0⟩, ⟨1, 0⟩⟩, ⟨⟨8, 0⟩, ⟨1, 0⟩⟩, ⟨4, 0⟩, ⟨2, 0⟩,
        ⟨2, 0⟩⟩⟩ : MacroblockRef).sample fs2 Component.Y 3 5 = some lb := by
      obtain ⟨la1, lb1, v1, -, h2, -, h4, -⟩ := hsamples Component.Y 3 5 (by decide) (by decide)
      rw [hlb0] at h4
      rw [h2, ← Option.some.inj h4]
    rw [hlb2] at h
    exact Option.some.inj h
  subst elb2
  have hbefore : Macroblock.equal
      ⟨0, ⟨⟨⟨0, 0⟩, ⟨0, 0⟩⟩, ⟨⟨0, 0⟩, ⟨0, 0⟩⟩, ⟨⟨0, 0⟩, ⟨0, 0⟩⟩, ⟨0, 0⟩, ⟨0, 0⟩, ⟨0, 0⟩⟩⟩
      ⟨0, ⟨⟨⟨16, 0⟩, ⟨1, 0⟩⟩, ⟨⟨8, 0⟩, ⟨1, 0⟩⟩, ⟨⟨8, 0⟩, ⟨1, 0⟩⟩, ⟨4, 0⟩, ⟨2, 0⟩, ⟨2, 0⟩⟩⟩
      [(Raster.padded 32 16).set_plane Component.Y
        ⟨32, 16, (List.range 512).map fun i => i % 251⟩] = some false := by
    decide
  exact ⟨hvalid, hbefore, fs2, la, lb2, hassign, hequal, ela, elb, ha0, hb0, hv2a, hv2b, fs3,
    hstore, hload3b, hload3a⟩


/-! ## C14: number of samples held by a plane -/

/-- When `width * height` does not wrap, the constructed plane holds one sample
for each of its positions. -/
theorem TwoD_construct_full (w h fill : Nat) (hw : 0 < w) (hh : 0 < h)
    (hprod : w * h < UINT_RANGE) :
    ∃ t : TwoD Nat, TwoD.construct w h fill = some t ∧ t.full ∧
      ∀ column row : Nat, column < w → row < h → t.get column row = some fill := by
  refine ⟨⟨w, h, List.replicate ((w * h) % UINT_RANGE) fill⟩, TwoD_construct_eq w h fill hw hh,
    ?_, ?_⟩
  · unfold TwoD.full
    rw [List.length_replicate]
    exact Nat.mod_eq_of_lt hprod
  · intro column row hc hr
    unfold TwoD.get
    rw [TwoD_at_eq _ column row hc hr, Option.some_bind]
    unfold TwoD.load
    rw [List.getElem?_replicate, Nat.mod_eq_of_lt hprod, if_pos (index_lt w h column row hc hr)]

/-- C14 at the failing input `width = height = 65536`: the product wraps to 0 in
`unsigned int`, so `storage_` is built with no sample at all although no
assertion fails; position (0, 0) passes the bounds check of `at` but has no
stored sample. The same plane is the luma plane of `Raster( 65536, 65536 )`. -/
theorem plane_storage_wraps :
    (0 < 65536 ∧ 65536 < UINT_RANGE) ∧
    TwoD.construct 65536 65536 0 = some ⟨65536, 65536, []⟩ ∧
    (⟨65536, 65536, []⟩ : TwoD Nat).storage_.length ≠ 65536 * 65536 ∧
    (⟨65536, 65536, []⟩ : TwoD Nat).at 0 0 = some 0 ∧
    (⟨65536, 65536, []⟩ : TwoD Nat).get 0 0 = none ∧
    Raster.construct 65536 65536 = some (Raster.padded 65536 65536) ∧
    (Raster.padded 65536 65536).Y_ = ⟨65536, 65536, []⟩ := by
  refine ⟨by norm_num [UINT_RANGE], ?_, by simp, rfl, rfl, ?_, ?_⟩
  · rw [TwoD_construct_eq 65536 65536 0 (by decide) (by decide)]
    rfl
  · exact construct_eq_padded 65536 65536 (by decide) (by norm_num [UINT_RANGE]) (by decide)
      (by norm_num [UINT_RANGE])
  · rfl

/-! ## C15: assertions during raster construction -/

/-- C15 at the failing input `display_width = 4294967295`, `display_height = 16`:
`num + 15` wraps to 14 in `macroblock_dimension`, which returns 0, so `width_`
is 0 and the luma plane constructor's `assert( width > 0 )` fails. -/
theorem construct_wrap_violates_assertion :
    (0 < 4294967295 ∧ 4294967295 < UINT_RANGE) ∧
    (4294967295 + 15) % UINT_RANGE = 14 ∧
    macroblock_dimension 4294967295 = 0 ∧
    (16 * macroblock_dimension 4294967295) % UINT_RANGE = 0 ∧
    TwoD.construct 0 ((16 * macroblock_dimension 16) % UINT_RANGE) 0 = none ∧
    Raster.construct 4294967295 16 = none := by
  have hwrap : (16 * macroblock_dimension 4294967295) % UINT_RANGE = 0 :=
    padded_width_wrap 4294967295 (by norm_num [UINT_RANGE]) (by norm_num [UINT_RANGE])
  refine ⟨by norm_num [UINT_RANGE], by norm_num [UINT_RANGE], ?_, hwrap, ?_,
    construct_none_of_width_zero 4294967295 16 hwrap⟩
  · unfold macroblock_dimension
    norm_num [UINT_RANGE]
  · simp [TwoD.construct]


/-! ## C13: the lattices tile the planes -/

/-- C13: in every constructed raster the derived lattices tile the planes exactly.
`4 * (width / 4) = 16 * (width / 16) = width` and
`4 * (width / 8) = 8 * (width / 16) = width / 2`, likewise for the height; the
luma lattices have `width / 4` x `height / 4` and `width / 16` x `height / 16`
elements, the chroma lattices `width / 8` x `height / 8` and
`width / 16` x `height / 16`, and the macroblock grid has the dimensions of the
big-block grids; the block at position `(i, j)` of a lattice of `N` x `N` blocks
views the window with origin `(N * i, N * j)`; and each macroblock's sub-block
windows (origin `4 * column, 4 * row` of size 4 x 4 for luma,
`2 * column, 2 * row` of size 2 x 2 for chroma) lie inside the sub-block
lattices. -/
theorem lattices_tile_planes (dw dh : Nat) (hdw : dw < UINT_RANGE) (hdh : dh < UINT_RANGE)
    (r : Raster) (hr : Raster.construct dw dh = some r) :
    (4 * (r.width / 4) = r.width ∧ 16 * (r.width / 16) = r.width ∧
      4 * (r.height / 4) = r.height ∧ 16 * (r.height / 16) = r.height) ∧
    (4 * (r.width / 8) = r.width / 2 ∧ 8 * (r.width / 16) = r.width / 2 ∧
      4 * (r.height / 8) = r.height / 2 ∧ 8 * (r.height / 16) = r.height / 2) ∧
    (r.Y_.width_ = r.width ∧ r.Y_.height_ = r.height ∧
      r.U_.width_ = r.width / 2 ∧ r.U_.height_ = r.height / 2 ∧
      r.V_.width_ = r.width / 2 ∧ r.V_.height_ = r.height / 2) ∧
    (r.Y_subblocks_.width_ = r.width / 4 ∧ r.Y_subblocks_.height_ = r.height / 4 ∧
      r.U_subblocks_.width_ = r.width / 8 ∧ r.U_subblocks_.height_ = r.height / 8 ∧
      r.V_subblocks_.width_ = r.width / 8 ∧ r.V_subblocks_.height_ = r.height / 8) ∧
    (r.Y_bigblocks_.width_ = r.width / 16 ∧ r.Y_bigblocks_.height_ = r.height / 16 ∧
      r.U_bigblocks_.width_ = r.width / 16 ∧ r.U_bigblocks_.height_ = r.height / 16 ∧
      r.V_bigblocks_.width_ = r.width / 16 ∧ r.V_bigblocks_.height_ = r.height / 16 ∧
      r.macroblocks_.width_ = r.Y_bigblocks_.width_ ∧
      r.macroblocks_.height_ = r.Y_bigblocks_.height_) ∧
    (∀ i j : Nat, i < r.width / 4 → j < r.height / 4 →
      r.Y_subblocks_.get i j = some ⟨⟨4 * i, 4 * j⟩, ⟨i, j⟩⟩) ∧
    (∀ i j : Nat, i < r.width / 8 → j < r.height / 8 →
      r.U_subblocks_.get i j = some ⟨⟨4 * i, 4 * j⟩, ⟨i, j⟩⟩ ∧
      r.V_subblocks_.get i j = some ⟨⟨4 * i, 4 * j⟩, ⟨i, j⟩⟩) ∧
    (∀ i j : Nat, i < r.width / 16 → j < r.height / 16 →
      r.Y_bigblocks_.get i j = some ⟨⟨16 * i, 16 * j⟩, ⟨i, j⟩⟩ ∧
      r.U_bigblocks_.get i j = some ⟨⟨8 * i, 8 * j⟩, ⟨i, j⟩⟩ ∧
      r.V_bigblocks_.get i j = some ⟨⟨8 * i, 8 * j⟩, ⟨i, j⟩⟩) ∧
    (∀ (column row : Nat) (mb : Macroblock), r.macroblock column row = some mb →
      (column < r.width / 16 ∧ row < r.height / 16) ∧
      (mb.Y_sub = ⟨4 * column, 4 * row⟩ ∧ mb.U_sub = ⟨2 * column, 2 * row⟩ ∧
        mb.V_sub = ⟨2 * column, 2 * row⟩) ∧
      (mb.Y_sub.inside r.Y_subblocks_ ∧ mb.U_sub.inside r.U_subblocks_ ∧
        mb.V_sub.inside r.V_subblocks_) ∧
      (r.Y_bigblocks_.get column row = some mb.Y ∧ r.U_bigblocks_.get column row = some mb.U ∧
        r.V_bigblocks_.get column row = some mb.V)) := by
  obtain ⟨-, -, -, -, rfl⟩ := construct_some_eq_padded dw dh hdw hdh r hr
  refine ⟨?_, ?_, ⟨rfl, rfl, rfl, rfl, rfl, rfl⟩, ⟨rfl, rfl, rfl, rfl, rfl, rfl⟩,
    ⟨rfl, rfl, rfl, rfl, rfl, rfl, rfl, rfl⟩, ?_, ?_, ?_, ?_⟩
  · simp only [Raster.width, Raster.height, Raster.padded]
    omega
  · simp only [Raster.width, Raster.height, Raster.padded]
    omega
  · intro i j hi hj
    simp only [Raster.width, Raster.height, Raster.padded] at hi hj ⊢
    rw [lattice_of_get, if_pos ⟨hi, hj⟩]
  · intro i j hi hj
    simp only [Raster.width, Raster.height, Raster.padded] at hi hj ⊢
    refine ⟨?_, ?_⟩ <;> rw [lattice_of_get, if_pos ⟨hi, hj⟩]
  · intro i j hi hj
    simp only [Raster.width, Raster.height, Raster.padded] at hi hj ⊢
    refine ⟨?_, ?_, ?_⟩ <;> rw [lattice_of_get, if_pos ⟨hi, hj⟩]
  · intro column row mb hmb
    simp only [Raster.macroblock, Raster.width, Raster.height, Raster.padded] at hmb ⊢
    rw [lattice_of_get] at hmb
    split_ifs at hmb with hin
    cases Option.some.inj hmb
    refine ⟨hin, ⟨rfl, rfl, rfl⟩, ?_, ?_⟩
    · unfold TwoDSubRange.inside
      simp only [lattice_of_width, lattice_of_height]
      omega
    · refine ⟨?_, ?_, ?_⟩ <;> rw [lattice_of_get, if_pos hin]

/-- Witness of `lattices_tile_planes` on the raster of display size 150 x 100
(padded to 160 x 112): the last macroblock, at grid position (9, 6). -/
theorem lattices_tile_planes_witness :
    Raster.construct 150 100 = some (Raster.padded 150 100) ∧
    4 * ((Raster.padded 150 100).width / 4) = (Raster.padded 150 100).width ∧
    (Raster.padded 150 100).macroblocks_.width_ = (Raster.padded 150 100).Y_bigblocks_.width_ ∧
    (⟨36, 24⟩ : TwoDSubRange 4 4).inside (Raster.padded 150 100).Y_subblocks_ := by
  have hc : Raster.construct 150 100 = some (Raster.padded 150 100) :=
    construct_eq_padded 150 100 (by decide) (by norm_num [UINT_RANGE]) (by decide)
      (by norm_num [UINT_RANGE])
  obtain ⟨h1, -, -, -, h5, -, -, -, h9⟩ :=
    lattices_tile_planes 150 100 (by norm_num [UINT_RANGE]) (by norm_num [UINT_RANGE])
      (Raster.padded 150 100) hc
  have hmb := h9 9 6
    ⟨⟨⟨144, 96⟩, ⟨9, 6⟩⟩, ⟨⟨72, 48⟩, ⟨9, 6⟩⟩, ⟨⟨72, 48⟩, ⟨9, 6⟩⟩, ⟨36, 24⟩, ⟨18, 12⟩, ⟨18, 12⟩⟩
    (by
      unfold Raster.macroblock Raster.padded
      rw [lattice_of_get, if_pos (by decide)]
      rfl)
  exact ⟨hc, h1.1, h5.2.2.2.2.2.2.1, hmb.2.2.1.1⟩


/-! ## C11: edge substitution of predictors -/

theorem TwoD_get_isSome (p : TwoD Nat) (column row : Nat) (hc : column < p.width_)
    (hr : row < p.height_) (hfull : p.full) : ∃ v, p.get column row = some v := by
  unfold TwoD.get
  rw [TwoD_at_eq p column row hc hr, Option.some_bind]
  unfold TwoD.load
  have hlt : row * p.width_ + column < p.storage_.length := by
    rw [hfull]
    exact index_lt _ _ _ _ hc hr
  exact ⟨_, List.getElem?_eq_getElem hlt⟩

theorem allSome_range_map (n : Nat) (f : Nat → Option Nat)
    (h : ∀ i, i < n → ∃ v, f i = some v) :
    ∃ l : List Nat, allSome ((List.range n).map f) = some l ∧ l.length = n ∧
      ∀ i, i < n → l[i]? = f i := by
  refine ⟨(List.range n).map fun i => (f i).getD 0, ?_, by simp, ?_⟩
  · apply allSome_map_some
    intro i hi
    obtain ⟨v, hv⟩ := h i (List.mem_range.mp hi)
    simp only [hv, Option.getD_some]
  · intro i hi
    obtain ⟨v, hv⟩ := h i hi
    rw [List.getElem?_map, List.getElem?_range hi, hv]
    simp [hv]

/-- C11: edge substitution of predictors, for a block built at lattice position
`c` over a plane that holds its samples. In the topmost row `above(column) = 127`
for every `column < N`; in the leftmost column `left(row) = 129` for every
`row < N`; a block with a row above it reads `above(column)` from the plane
sample immediately above the block, `(N * c.column + column, N * c.row - 1)`,
and a block with a column to its left reads `left(row)` from the plane sample
immediately to its left, `(N * c.column - 1, N * c.row + row)`. -/
theorem predictors_edge_substitution (size : Nat) (hsize : 0 < size) (c : Context)
    (p : TwoD Nat) (b : Block size) (hb : Block.construct size c p = some b) (hfull : p.full)
    (above_right : List Nat) :
    ∃ pr : Predictors size, b.predictors p above_right = some pr ∧
      (c.row = 0 → ∀ column : Nat, column < size → pr.above column = some 127) ∧
      (c.column = 0 → ∀ row : Nat, row < size → pr.left row = some 129) ∧
      (0 < c.row → ∀ column : Nat, column < size →
        (pr.above column).isSome = true ∧
        pr.above column = p.get (size * c.column + column) (size * c.row - 1)) ∧
      (0 < c.column → ∀ row : Nat, row < size →
        (pr.left row).isSome = true ∧
        pr.left row = p.get (size * c.column - 1) (size * c.row + row)) := by
  unfold Block.construct TwoDSubRange.construct at hb
  by_cases hin : size * c.column + size ≤ p.width_ ∧ size * c.row + size ≤ p.height_
  swap
  · rw [if_neg hin] at hb
    cases hb
  rw [if_pos hin] at hb
  cases Option.some.inj hb
  obtain ⟨hinw, hinh⟩ := hin
  -- the above row
  obtain ⟨a, ha, halen, haget⟩ : ∃ a : List Nat,
      (if (⟨c.column, c.row⟩ : Context).has_above then
        allSome ((List.range size).map fun column => p.get (size * c.column + column)
          (size * c.row - 1))
      else some (row127 size)) = some a ∧ a.length = size ∧
      ∀ column, column < size → a[column]? =
        if 0 < c.row then p.get (size * c.column + column) (size * c.row - 1) else some 127 := by
    by_cases h0 : 0 < c.row
    · have hsize : 0 < size := by
        by_contra hs
        have : size = 0 := by omega
        subst this
        omega
      obtain ⟨l, hl, hlen, hget⟩ := allSome_range_map size
        (fun column => p.get (size * c.column + column) (size * c.row - 1))
        (fun i hi => TwoD_get_isSome p _ _ (by omega) (by omega) hfull)
      refine ⟨l, ?_, hlen, ?_⟩
      · simp only [Context.has_above, h0, decide_True, if_true]
        exact hl
      · intro column hc
        rw [if_pos h0]
        exact hget column hc
    · refine ⟨row127 size, ?_, by simp [row127], ?_⟩
      · simp only [Context.has_above, h0, decide_False]
        rfl
      · intro column hc
        rw [if_neg h0]
        simp [row127, List.getElem?_replicate, hc]
  -- the left column
  obtain ⟨l, hl, hllen, hlget⟩ : ∃ l : List Nat,
      (if (⟨c.column, c.row⟩ : Context).has_left then
        allSome ((List.range size).map fun row => p.get (size * c.column - 1)
          (size * c.row + row))
      else some (col129 size)) = some l ∧ l.length = size ∧
      ∀ row, row < size → l[row]? =
        if 0 < c.column then p.get (size * c.column - 1) (size * c.row + row) else some 129 := by
    by_cases h0 : 0 < c.column
    · have hsize : 0 < size := by
        by_contra hs
        have : size = 0 := by omega
        subst this
        omega
      obtain ⟨l, hl, hlen, hget⟩ := allSome_range_map size
        (fun row => p.get (size * c.column - 1) (size * c.row + row))
        (fun i hi => TwoD_get_isSome p _ _ (by omega) (by omega) hfull)
      refine ⟨l, ?_, hlen, ?_⟩
      · simp only [Context.has_left, h0, decide_True, if_true]
        exact hl
      · intro row hr
        rw [if_pos h0]
        exact hget row hr
    · refine ⟨col129 size, ?_, by simp [col129], ?_⟩
      · simp only [Context.has_left, h0, decide_False]
        rfl
      · intro row hr
        rw [if_neg h0]
        simp [col129, List.getElem?_replicate, hr]
  -- the corner
  obtain ⟨k, hk⟩ : ∃ k : Nat,
      (if ((⟨c.column, c.row⟩ : Context).has_above && (⟨c.column, c.row⟩ : Context).has_left) then
        p.get (size * c.column - 1) (size * c.row - 1)
      else if (⟨c.column, c.row⟩ : Context).has_left then some 127
      else some 129) = some k := by
    by_cases hboth : ((⟨c.column, c.row⟩ : Context).has_above &&
        (⟨c.column, c.row⟩ : Context).has_left) = true
    · rw [if_pos hboth]
      simp only [Context.has_above, Context.has_left, Bool.and_eq_true, decide_eq_true_eq]
        at hboth
      exact TwoD_get_isSome p _ _ (by omega) (by omega) hfull
    · rw [if_neg hboth]
      by_cases hl2 : (⟨c.column, c.row⟩ : Context).has_left = true
      · rw [if_pos hl2]; exact ⟨_, rfl⟩
      · rw [if_neg hl2]; exact ⟨_, rfl⟩
  refine ⟨⟨a, l, k, above_right⟩, ?_, ?_, ?_, ?_, ?_⟩
  · unfold Block.predictors
    simp only []
    rw [ha, hl, hk]
    rfl
  · intro h0 column hc
    rw [Predictors_above_eq _ column hc]
    show a[column]? = some 127
    rw [haget column hc, if_neg (by omega)]
  · intro h0 row hr
    rw [Predictors_left_eq _ row hr]
    show l[row]? = some 129
    rw [hlget row hr, if_neg (by omega)]
  · intro h0 column hc
    rw [Predictors_above_eq _ column hc]
    show (a[column]?).isSome = true ∧ a[column]? = _
    rw [haget column hc, if_pos h0]
    obtain ⟨v, hv⟩ := TwoD_get_isSome p (size * c.column + column) (size * c.row - 1)
      (by omega) (by omega) hfull
    exact ⟨by rw [hv]; rfl, rfl⟩
  · intro h0 row hr
    rw [Predictors_left_eq _ row hr]
    show (l[row]?).isSome = true ∧ l[row]? = _
    rw [hlget row hr, if_pos h0]
    obtain ⟨v, hv⟩ := TwoD_get_isSome p (size * c.column - 1) (size * c.row + row)
      (by omega) (by omega) hfull
    exact ⟨by rw [hv]; rfl, rfl⟩


/-- Witness of `predictors_edge_substitution`: the 4 x 4 block at lattice
position (1, 0) of an 8 x 8 plane: topmost row, with a column to its left. -/
theorem predictors_edge_substitution_witness :
    Block.construct 4 ⟨1, 0⟩ ⟨8, 8, List.range 64⟩ = some ⟨⟨4, 0⟩, ⟨1, 0⟩⟩ ∧
    (⟨8, 8, List.range 64⟩ : TwoD Nat).full ∧
    ∃ pr : Predictors 4,
      (⟨⟨4, 0⟩, ⟨1, 0⟩⟩ : Block 4).predictors ⟨8, 8, List.range 64⟩ [] = some pr ∧
      pr.above ((2 : Nat) : Int) = some 127 ∧
      pr.left ((2 : Nat) : Int) = (⟨8, 8, List.range 64⟩ : TwoD Nat).get 3 2 := by
  have hb : Block.construct 4 ⟨1, 0⟩ ⟨8, 8, List.range 64⟩ = some ⟨⟨4, 0⟩, ⟨1, 0⟩⟩ := by rfl
  have hfull : (⟨8, 8, List.range 64⟩ : TwoD Nat).full := by
    unfold TwoD.full
    simp
  obtain ⟨pr, h1, h2, -, -, h5⟩ :=
    predictors_edge_substitution 4 (by decide) ⟨1, 0⟩ ⟨8, 8, List.range 64⟩ ⟨⟨4, 0⟩, ⟨1, 0⟩⟩
      hb hfull []
  exact ⟨hb, hfull, pr, h1, h2 rfl 2 (by decide), (h5 (by decide) 2 (by decide)).2⟩


/-! ## C12: safe inter prediction never fails -/

theorem clamp_coordinate_lt (v : Int) (extent : Nat) (h : 0 < extent) :
    clamp_coordinate v extent < extent := by
  unfold clamp_coordinate
  split_ifs <;> omega

theorem at_clamped_isSome (reference : TwoD Nat) (column row : Int)
    (hw : 0 < reference.width_) (hh : 0 < reference.height_) (hfull : reference.full) :
    ∃ v, reference.at_clamped column row = some v ∧ v ∈ reference.storage_ := by
  unfold TwoD.at_clamped
  obtain ⟨v, hv⟩ := TwoD_get_isSome reference _ _ (clamp_coordinate_lt column _ hw)
    (clamp_coordinate_lt row _ hh) hfull
  refine ⟨v, hv, ?_⟩
  unfold TwoD.get at hv
  rw [TwoD_at_eq reference _ _ (clamp_coordinate_lt column _ hw)
    (clamp_coordinate_lt row _ hh), Option.some_bind] at hv
  exact List.getElem?_mem hv

theorem inter_sample_clamped_eq (reference : TwoD Nat) (filter : InterpolationFilter)
    (mv : MotionVector) (sc sr : Int) (column row : Nat)
    (hw : 0 < reference.width_) (hh : 0 < reference.height_) (hfull : reference.full) :
    inter_sample reference.at_clamped filter mv sc sr column row =
      some (filter.combine mv ((filter.taps mv).map fun t =>
        (reference.at_clamped (sc + column + t.1) (sr + row + t.2)).getD 0)) := by
  unfold inter_sample
  rw [allSome_map_some (filter.taps mv)
    (fun t => reference.at_clamped (sc + column + t.1) (sr + row + t.2))
    (fun t => (reference.at_clamped (sc + column + t.1) (sr + row + t.2)).getD 0)
    (by
      intro t _
      obtain ⟨v, hv, -⟩ := at_clamped_isSome reference (sc + column + t.1) (sr + row + t.2)
        hw hh hfull
      simp only [hv, Option.getD_some])]
  rfl

/-- C12: `safe_inter_predict` never fails, for any motion vector, interpolation
filter and source position, on a reference plane and a target plane that hold
their samples. Every tap is read at the source coordinate clamped into the
reference (edge replication), also when the footprint lies entirely outside
it, and the output sample is the filter's combination of these samples. For a
reference filled with one value `v` every output sample is the filter's
combination of taps that all equal `v`, hence `v` itself for every filter that
maps constant taps to that constant, whatever the motion vector. -/
theorem safe_inter_predict_never_fails (size : Nat) (b : Block size)
    (filter : InterpolationFilter) (mv : MotionVector) (reference : TwoD Nat)
    (sc sr : Int) (p : TwoD Nat)
    (hw : 0 < reference.width_) (hh : 0 < reference.height_) (hrfull : reference.full)
    (hin : b.contents_.inside p) (hfull : p.full) :
    ∃ p2 : TwoD Nat, b.safe_inter_predict filter mv reference sc sr p = some p2 ∧
      (∀ column row : Nat, column < size → row < size →
        b.read p2 column row =
          some (filter.combine mv ((filter.taps mv).map fun t =>
            (reference.at_clamped (sc + column + t.1) (sr + row + t.2)).getD 0)) ∧
        ∀ t ∈ filter.taps mv,
          (reference.at_clamped (sc + column + t.1) (sr + row + t.2)).isSome = true ∧
          reference.at_clamped (sc + column + t.1) (sr + row + t.2) =
            reference.get (clamp_coordinate (sc + column + t.1) reference.width_)
              (clamp_coordinate (sr + row + t.2) reference.height_) ∧
          clamp_coordinate (sc + column + t.1) reference.width_ < reference.width_ ∧
          clamp_coordinate (sr + row + t.2) reference.height_ < reference.height_) ∧
      (∀ v : Nat, (∀ x ∈ reference.storage_, x = v) →
        (∀ column row : Nat, column < size → row < size →
          b.read p2 column row =
            some (filter.combine mv (List.replicate (filter.taps mv).length v))) ∧
        (filter.combine mv (List.replicate (filter.taps mv).length v) = v →
          ∀ column row : Nat, column < size → row < size → b.read p2 column row = some v)) := by
  have hf : ∀ column row : Nat, column < size → row < size →
      inter_sample reference.at_clamped filter mv sc sr column row =
        some ((fun (column row : Nat) => filter.combine mv ((filter.taps mv).map fun t =>
          (reference.at_clamped (sc + (column : Int) + t.1)
            (sr + (row : Int) + t.2)).getD 0)) column row) :=
    fun column row _ _ =>
      inter_sample_clamped_eq reference filter mv sc sr column row hw hh hrfull
  obtain ⟨p2, hp2, -, -, -, hget, -⟩ :=
    forall_ij_spec b.contents_ (inter_sample reference.at_clamped filter mv sc sr) _
      p hf hin hfull
  have hconst : ∀ v : Nat, (∀ x ∈ reference.storage_, x = v) →
      ∀ column row : Nat, column < size → row < size →
        b.read p2 column row =
          some (filter.combine mv (List.replicate (filter.taps mv).length v)) := by
    intro v hv column row hc hr
    rw [Block_read_eq_get, hget column row hc hr]
    have hmap : ((filter.taps mv).map fun t =>
        (reference.at_clamped (sc + column + t.1) (sr + row + t.2)).getD 0) =
        (filter.taps mv).map fun _ => v := by
      apply List.map_congr_left
      intro t _
      obtain ⟨x, hx, hxmem⟩ := at_clamped_isSome reference (sc + column + t.1)
        (sr + row + t.2) hw hh hrfull
      rw [hx, Option.getD_some]
      exact hv x hxmem
    rw [hmap, List.map_const']
  refine ⟨p2, hp2, ?_, ?_⟩
  · intro column row hc hr
    refine ⟨by rw [Block_read_eq_get, hget column row hc hr], ?_⟩
    intro t _
    obtain ⟨x, hx, -⟩ := at_clamped_isSome reference (sc + column + t.1)
      (sr + row + t.2) hw hh hrfull
    exact ⟨by rw [hx]; rfl, rfl, clamp_coordinate_lt _ _ hw, clamp_coordinate_lt _ _ hh⟩
  · intro v hv
    refine ⟨hconst v hv, ?_⟩
    intro hnorm column row hc hr
    rw [hconst v hv column row hc hr, hnorm]

/-- Witness of `safe_inter_predict_never_fails`: a 2 x 2 block predicted from a
2 x 2 reference filled with 42, with a four-tap averaging filter and a source
position far outside the reference. -/
theorem safe_inter_predict_never_fails_witness :
    ∃ p2 : TwoD Nat,
      (⟨⟨0, 0⟩, ⟨0, 0⟩⟩ : Block 2).safe_inter_predict
        ⟨fun _ => [(0, 0), (1, 0), (0, 1), (1, 1)], fun _ xs => (xs.sum + 2) / 4⟩
        ⟨8003, -8005⟩ ⟨2, 2, [42, 42, 42, 42]⟩ 1000 (-1000) ⟨2, 2, [0, 0, 0, 0]⟩ = some p2 ∧
      (⟨⟨0, 0⟩, ⟨0, 0⟩⟩ : Block 2).read p2 1 1 = some 42 := by
  obtain ⟨p2, h1, -, h3⟩ :=
    safe_inter_predict_never_fails 2 ⟨⟨0, 0⟩, ⟨0, 0⟩⟩
      ⟨fun _ => [(0, 0), (1, 0), (0, 1), (1, 1)], fun _ xs => (xs.sum + 2) / 4⟩
      ⟨8003, -8005⟩ ⟨2, 2, [42, 42, 42, 42]⟩ 1000 (-1000) ⟨2, 2, [0, 0, 0, 0]⟩
      (by decide) (by decide) (by decide) (by decide) (by decide)
  have hconst : ∀ x ∈ (⟨2, 2, [42, 42, 42, 42]⟩ : TwoD Nat).storage_, x = 42 := by
    intro x hx
    simp only [List.mem_cons, List.mem_singleton, List.not_mem_nil, or_false, or_self] at hx
    exact hx
  have hnorm : (⟨fun _ => [(0, 0), (1, 0), (0, 1), (1, 1)], fun _ xs => (xs.sum + 2) / 4⟩ :
      InterpolationFilter).combine ⟨8003, -8005⟩ (List.replicate
        ((⟨fun _ => [(0, 0), (1, 0), (0, 1), (1, 1)], fun _ xs => (xs.sum + 2) / 4⟩ :
          InterpolationFilter).taps ⟨8003, -8005⟩).length 42) = 42 := by
    decide
  exact ⟨p2, h1, (h3 42 hconst).2 hnorm 1 1 (by decide) (by decide)⟩


end Alfalfa
